import Mathlib

/-!
# Verification of the Lunar compiler front-end against its specification

This file gives a shallow embedding, in Lean 4, of the parts of the Lunar
compiler (a Go transpiler from a typed dialect to Lua) that the specification
claims talk about, and settles each claim by a theorem.

Embedded components (each definition is a direct transcription of the named
Go function):

* `Lunar.SourceMap` — the VLQ base64 encoder/decoder of
  `internal/sourcemap` (`EncodeVLQ`, `DecodeVLQ`).
* `Lunar.Ast` / `Lunar.Types` / `Lunar.Check` — the AST node shapes, the
  checker's internal type model (`internal/types/types.go`) and the two-pass
  checker (`internal/types/check.go`).
* `Lunar.Parse` — the type-expression part of the recursive-descent parser
  (`internal/parser`), with Go run-time panics made explicit in an `Except`.
* `Lunar.Gen` — the code generator (`internal/codegen`), with the iteration
  order of Go's `map` over table-literal pairs made an explicit parameter.

Go `map[string]T` registries are modelled as association lists with
insert-at-front (so lookup of the most recent binding matches map overwrite);
Go slices are lists; Go `nil` pointers/interfaces are `Option`; Go machine
integers are `Nat`/`Int` (no operation in the embedded code overflows for the
inputs considered); the `float64` payload of number literals is modelled as
`Rat` (the embedded code never does float arithmetic on it, only equality and
printing of small integer constants).
-/

namespace Lunar.SourceMap

/-- The base64 alphabet of `internal/sourcemap/vlq.go`
(`var base64Chars = "ABCDEFGHIJKLMNOPQRSTUVWXYZabcdefghijklmnopqrstuvwxyz0123456789+/"`). -/
def base64Chars : List Char :=
  "ABCDEFGHIJKLMNOPQRSTUVWXYZabcdefghijklmnopqrstuvwxyz0123456789+/".data

/-- `base64Chars[digit]` (Go string indexing; every index used is `< 64`). -/
def base64Char (digit : Nat) : Char := base64Chars.getD digit 'A'

/-- `vlqBaseShift = 5`. -/
def vlqBaseShift : Nat := 5
/-- `vlqBase = 1 << vlqBaseShift = 32`. -/
def vlqBase : Nat := 1 <<< vlqBaseShift
/-- `vlqBaseMask = vlqBase - 1 = 31`. -/
def vlqBaseMask : Nat := vlqBase - 1
/-- `vlqContinuationBit = vlqBase = 32`. -/
def vlqContinuationBit : Nat := vlqBase

/-- The `for { ... }` emission loop of `EncodeVLQ`: repeatedly take the low
five bits, set the continuation bit when more remain, emit one base64
character per group.  The Go loop is do-while style: it always emits at
least one character. -/
def encodeLoop (vlq : Nat) : List Char :=
  let digit := vlq &&& vlqBaseMask
  let rest := vlq >>> vlqBaseShift
  if rest > 0 then
    base64Char (digit ||| vlqContinuationBit) :: encodeLoop rest
  else
    [base64Char digit]
termination_by vlq
decreasing_by
  rename_i h
  have hv : vlq >>> vlqBaseShift = vlq / 2 ^ 5 := Nat.shiftRight_eq_div_pow vlq 5
  have h2 : rest = vlq >>> vlqBaseShift := rfl
  rw [h2, hv] at h
  calc vlq >>> vlqBaseShift = vlq / 2 ^ 5 := hv
    _ < vlq := by omega

/-- `EncodeVLQ`: sign-interleave (`(|v| << 1) | sign`) then emit 5-bit
groups low-to-high.  (Result as a character list; Go returns the string.) -/
def EncodeVLQ (value : Int) : List Char :=
  let vlq : Nat :=
    if value < 0 then (value.natAbs <<< 1) ||| 1 else value.natAbs <<< 1
  encodeLoop vlq

/-- The per-character digit table of `DecodeVLQ` (`A..Z`, `a..z`, `0..9`,
`+`, `/`); any other byte leaves the Go `digit` variable at `0`. -/
def charDigit (c : Char) : Nat :=
  if 'A' ≤ c ∧ c ≤ 'Z' then c.toNat - 'A'.toNat
  else if 'a' ≤ c ∧ c ≤ 'z' then c.toNat - 'a'.toNat + 26
  else if '0' ≤ c ∧ c ≤ '9' then c.toNat - '0'.toNat + 52
  else if c = '+' then 62
  else if c = '/' then 63
  else 0

/-- The accumulation loop of `DecodeVLQ`: `result += digit << shift` with
`shift` growing by five per character, stopping after the first character
whose continuation bit is clear.  Returns the raw accumulated `result`
together with `charsRead`. -/
def decodeLoop : List Char → Nat → Nat × Nat
  | [], _ => (0, 0)
  | c :: rest, shift =>
    let digit := charDigit c
    let continuation := digit &&& vlqContinuationBit ≠ 0
    let d := digit &&& vlqBaseMask
    if continuation then
      let (r, n) := decodeLoop rest (shift + vlqBaseShift)
      ((d <<< shift) + r, n + 1)
    else
      ((d <<< shift), 1)

/-- `DecodeVLQ`: run the loop, then undo the sign interleaving
(`result & 1 == 1` means negative).  Returns the value and the number of
characters consumed. -/
def DecodeVLQ (encoded : List Char) : Int × Nat :=
  let rn := decodeLoop encoded 0
  if rn.1 % 2 = 1 then (-(Int.ofNat (rn.1 >>> 1)), rn.2)
  else (Int.ofNat (rn.1 >>> 1), rn.2)

end Lunar.SourceMap

namespace Lunar

/-- `lexer.Token`, restricted to the fields the checker and generator read
(`Literal`, `Line`, `Column`).  The token kind is not needed past parsing. -/
structure Tok where
  literal : String
  line : Nat
  column : Nat
deriving DecidableEq, Repr

/-- The zero `lexer.Token{}` value used by `check.go` for some diagnostics. -/
def Tok.zero : Tok := ⟨"", 0, 0⟩

/-- `ast.Expression`: the value-expression variants of `internal/ast`.
`self` and `super` are parsed as plain identifiers by this parser
(`parser.New` registers `parseIdentifier` for the `SELF` token), so no
dedicated variant is needed.  `tableLit`'s `pairs` is Go's
`Pairs map[Expression]Expression` (keys are AST pointers, so entries never
collide); it is modelled as the entry list in insertion order, and every
iteration over it in embedded code either follows that order or (in the
generator, where the claims depend on it) takes the enumeration order as an
explicit parameter, since Go map iteration order is unspecified. -/
inductive Expr where
  | ident (tok : Tok) (value : String)
  | numberLit (tok : Tok) (value : Rat)
  | stringLit (tok : Tok) (value : String)
  | booleanLit (tok : Tok) (value : Bool)
  | nilLit (tok : Tok)
  | tableLit (tok : Tok) (values : List Expr) (pairs : List (Expr × Expr))
  | prefixExpr (tok : Tok) (op : String) (right : Expr)
  | infixExpr (tok : Tok) (op : String) (left : Expr) (right : Expr)
  | call (tok : Tok) (function : Expr) (args : List Expr)
  | dot (tok : Tok) (left : Expr) (right : Expr)
  | indexExpr (tok : Tok) (left : Expr) (index : Expr)
deriving Repr

/-- The type-expression AST variants (`ast.ArrayType`, `ast.TableType`,
`ast.UnionType`, `ast.TupleType`, `ast.FunctionType`, `ast.GenericType`,
`ast.OptionalType`, plus identifiers and string/number literals in type
position).  In Go these share the `ast.Expression` interface with value
expressions; the checker's `resolveTypeExpression` switches on exactly the
variants below and sends everything else (in particular `OptionalType`,
which has no case) to the `default` branch.  Recursive children are
`Option` because the Go fields are nilable interface values (the parser
stores `nil` results of failed sub-parses in them); slice elements can be
`nil` the same way.  `funcT` keeps only the parameter type expressions of
`ast.FunctionType.Parameters` (the parameter names are never read during
resolution). -/
inductive TypeExpr where
  | ident (tok : Tok) (value : String)
  | stringLit (tok : Tok) (value : String)
  | numberLit (tok : Tok) (value : Rat)
  | arrayT (tok : Tok) (elementType : Option TypeExpr)
  | tableT (tok : Tok) (keyType : Option TypeExpr) (valueType : Option TypeExpr)
  | unionT (tok : Tok) (types : List (Option TypeExpr))
  | tupleT (tok : Tok) (types : List (Option TypeExpr))
  | funcT (tok : Tok) (paramTypes : List (Option TypeExpr)) (returnType : Option TypeExpr)
  | genericT (tok : Tok) (baseType : Option TypeExpr) (typeArguments : List (Option TypeExpr))
  | optionalT (tok : Tok) (type : Option TypeExpr)
deriving Repr

/-- `ast.Parameter`: a named, optionally annotated parameter. -/
structure Param where
  tok : Tok
  name : String
  type? : Option TypeExpr
deriving Repr

/-- `ast.PropertyDeclaration` (visibility/static/readonly modifiers are
carried but never read by the embedded checker, exactly as `check.go`
never reads them). -/
structure Property where
  tok : Tok
  visibility : String
  isStatic : Bool
  isReadonly : Bool
  name : String
  type? : Option TypeExpr
deriving Repr

/-- `ast.EnumMember`. -/
structure EnumMember where
  tok : Tok
  name : String
  value? : Option Expr
deriving Repr

/-- `ast.InterfaceMethod`. -/
structure IfaceMethod where
  tok : Tok
  name : String
  parameters : List Param
  returnType : Option TypeExpr
deriving Repr

mutual

/-- `ast.Statement`: the statement variants of `internal/ast`.  Blocks are
`Option (List Statement)` where the Go field is a possibly-nil
`*BlockStatement`. -/
inductive Statement where
  | varDecl (tok : Tok) (isConstant : Bool) (name : String)
      (type? : Option TypeExpr) (value? : Option Expr)
  | funcDecl (f : FuncDecl)
  | exprStmt (tok : Tok) (e : Option Expr)
  | ret (tok : Tok) (returnValue : Option Expr)
  | ifS (tok : Tok) (condition : Expr) (consequence : Option (List Statement))
      (alternative : Option (List Statement))
  | whileS (tok : Tok) (condition : Expr) (body : Option (List Statement))
  | forS (tok : Tok) (varName : String) (start? : Option Expr) (endE : Option Expr)
      (step? : Option Expr) (iterator? : Option Expr) (isGeneric : Bool)
      (body : Option (List Statement))
  | doS (tok : Tok) (body : Option (List Statement))
  | breakS (tok : Tok)
  | blockS (tok : Tok) (statements : List Statement)
  | assign (tok : Tok) (name : Expr) (value : Expr)
  | classDecl (tok : Tok) (name : String) (genericParams : List String)
      (extendsE : Option Expr) (properties : List Property)
      (methods : List FuncDecl) (constructorDecl : Option CtorDecl)
      (implementsE : List Expr) (isAbstract : Bool)
  | interfaceDecl (tok : Tok) (name : String) (methods : List IfaceMethod)
      (properties : List Property) (extendsE : List Expr)
  | enumDecl (tok : Tok) (name : String) (members : List EnumMember)
  | typeDecl (tok : Tok) (name : String) (genericParams : List String)
      (type? : Option TypeExpr) (properties : List Property)
  | declareS (tok : Tok) (declaration : Option Statement)
  | exportS (tok : Tok) (statement : Option Statement)
  | importS (tok : Tok) (names : List String) (module : String) (isWildcard : Bool)

/-- `ast.FunctionDeclaration` (also used for class methods). -/
inductive FuncDecl where
  | mk (tok : Tok) (name : String) (genericParams : List String)
      (parameters : List Param) (returnType : Option TypeExpr)
      (body : Option (List Statement)) (isStatic : Bool) (isAbstract : Bool)
      (visibility : String)

/-- `ast.ConstructorDeclaration`. -/
inductive CtorDecl where
  | mk (tok : Tok) (parameters : List Param) (body : Option (List Statement))

end

def FuncDecl.tok : FuncDecl → Tok | .mk t _ _ _ _ _ _ _ _ => t
def FuncDecl.name : FuncDecl → String | .mk _ n _ _ _ _ _ _ _ => n
def FuncDecl.genericParams : FuncDecl → List String | .mk _ _ g _ _ _ _ _ _ => g
def FuncDecl.parameters : FuncDecl → List Param | .mk _ _ _ p _ _ _ _ _ => p
def FuncDecl.returnType : FuncDecl → Option TypeExpr | .mk _ _ _ _ r _ _ _ _ => r
def FuncDecl.body : FuncDecl → Option (List Statement) | .mk _ _ _ _ _ b _ _ _ => b
def CtorDecl.parameters : CtorDecl → List Param | .mk _ p _ => p
def CtorDecl.body : CtorDecl → Option (List Statement) | .mk _ _ b => b

end Lunar

namespace Lunar.Types

/-- The checker's internal type model (`internal/types/types.go`).  One
inductive replaces Go's `Type` interface; `classTy`/`interfaceTy` inline
the `ClassType`/`InterfaceType` structs (their `Implements`/`Extends`
slices of interface pointers are `List Ty` whose elements are always
`interfaceTy` values).  `ClassType`'s `StaticProperties`, `StaticMethods`,
`ReadonlyProps` and `AbstractMethods` maps are never written or read by
`check.go` and are omitted; its `Constructor` and `IsAbstract` fields are
kept (they too are never written by `registerClass`, which is what claim
C2 turns on).  Go's `EnumType.Members` maps every member name to the enum
object itself (a pointer cycle); it is modelled by the member-name list,
with `enumGetMemberType` rebuilding the enum type, which is observationally
the same.  `numberLit` carries the `float64` literal value as a `Rat`
(the checker only ever compares and prints these values; all inputs in
this file are small integers, on which the models agree). -/
inductive Ty where
  | number
  | stringT
  | boolean
  | nilT
  | void
  | any
  | stringLit (value : String)
  | numberLit (value : Rat)
  | array (elementType : Ty)
  | table (keyType : Ty) (valueType : Ty)
  | func (parameters : List Ty) (returnType : Ty)
  | union (types : List Ty)
  | optionalTy (baseType : Ty)
  | tuple (elements : List Ty)
  | classTy (name : String) (properties : List (String × Ty))
      (methods : List (String × (List Ty × Ty))) (implements : List Ty)
      (constructorSig : Option (List Ty × Ty)) (isAbstract : Bool)
  | interfaceTy (name : String) (properties : List (String × Ty))
      (methods : List (String × (List Ty × Ty))) (extendsI : List Ty)
  | enumTy (name : String) (memberNames : List String)
  | genericAlias (name : String) (typeParams : List String) (body : Option TypeExpr)
deriving Repr

/-- Association-list lookup: first match, which is Go map lookup under
insert-at-front updates. -/
def lookupAssoc {α : Type} : List (String × α) → String → Option α
  | [], _ => none
  | (k, v) :: rest, n => if k = n then some v else lookupAssoc rest n

/-- Association-list insert modelling Go map assignment `m[k] = v`. -/
def insertAssoc {α : Type} (l : List (String × α)) (k : String) (v : α) :
    List (String × α) := (k, v) :: l

/-- Render a `Rat` the way Go's `fmt.Sprintf("%g", value)` renders the
corresponding `float64`.  The two agree on integer-valued literals (the
only number literals that occur in this development); no claim depends on
fractional rendering. -/
def ratString (v : Rat) : String :=
  if v.den = 1 then toString v.num else toString v.num ++ "/" ++ toString v.den

mutual

/-- The `String()` methods of `types.go` (one per `Type` implementation).
The `fuel` only bounds recursion depth: the Go methods recurse on the
(acyclic) type structure and always terminate, and every use in this file
passes ample fuel, so the `0` branch is unreachable; fuel makes the
mutual recursion (which is not structural in the type argument, a nested
inductive) structural, so it evaluates in the kernel. -/
def tyString : Nat → Ty → String
  | 0, _ => ""
  | fuel + 1, t =>
    match t with
    | .number => "number"
    | .stringT => "string"
    | .boolean => "boolean"
    | .nilT => "nil"
    | .void => "void"
    | .any => "any"
    | .stringLit v => "\"" ++ v ++ "\""
    | .numberLit v => ratString v
    | .array e => tyString fuel e ++ "[]"
    | .table k v => "table<" ++ tyString fuel k ++ ", " ++ tyString fuel v ++ ">"
    | .func ps r =>
      "(" ++ String.intercalate ", " (tyStringList fuel ps) ++ ") -> " ++ tyString fuel r
    | .union ts => String.intercalate " | " (tyStringList fuel ts)
    | .optionalTy b => tyString fuel b ++ "?"
    | .tuple es => "(" ++ String.intercalate ", " (tyStringList fuel es) ++ ")"
    | .classTy n _ _ _ _ _ => n
    | .interfaceTy n _ _ _ => n
    | .enumTy n _ => n
    | .genericAlias n ps _ => n ++ "<" ++ String.intercalate ", " ps ++ ">"

def tyStringList : Nat → List Ty → List String
  | 0, _ => []
  | _ + 1, [] => []
  | fuel + 1, t :: ts => tyString fuel t :: tyStringList fuel ts

end

mutual

/-- The `Equals` methods of `types.go`.  Each case mirrors the Go method
of the type on the left: same shape, and for unions same length plus
order-independent membership; classes, interfaces and enums compare by
name; generic aliases by name and parameter list.  Fuelled like
`tyString` (the Go recursion descends through both arguments and is not
structural; ample fuel never runs out). -/
def tyEquals : Nat → Ty → Ty → Bool
  | 0, _, _ => false
  | fuel + 1, a, b =>
    match a, b with
    | .number, o => match o with
      | .number => true
      | _ => false
    | .stringT, o => match o with
      | .stringT => true
      | _ => false
    | .boolean, o => match o with
      | .boolean => true
      | _ => false
    | .nilT, o => match o with
      | .nilT => true
      | _ => false
    | .void, o => match o with
      | .void => true
      | _ => false
    | .any, o => match o with
      | .any => true
      | _ => false
    | .stringLit v, o => match o with
      | .stringLit w => v = w
      | _ => false
    | .numberLit v, o => match o with
      | .numberLit w => v = w
      | _ => false
    | .array e, o => match o with
      | .array e2 => tyEquals fuel e e2
      | _ => false
    | .table k v, o => match o with
      | .table k2 v2 => tyEquals fuel k k2 && tyEquals fuel v v2
      | _ => false
    | .func ps r, o => match o with
      | .func ps2 r2 => tyEqualsList fuel ps ps2 && tyEquals fuel r r2
      | _ => false
    | .union ts, o => match o with
      | .union os => ts.length == os.length && tyAllMem fuel ts os
      | _ => false
    | .optionalTy b2, o => match o with
      | .optionalTy b3 => tyEquals fuel b2 b3
      | _ => false
    | .tuple es, o => match o with
      | .tuple es2 => tyEqualsList fuel es es2
      | _ => false
    | .classTy n _ _ _ _ _, o => match o with
      | .classTy n2 _ _ _ _ _ => n = n2
      | _ => false
    | .interfaceTy n _ _ _, o => match o with
      | .interfaceTy n2 _ _ _ => n = n2
      | _ => false
    | .enumTy n _, o => match o with
      | .enumTy n2 _ => n = n2
      | _ => false
    | .genericAlias n ps _, o => match o with
      | .genericAlias n2 ps2 _ => n = n2 && ps == ps2
      | _ => false

/-- Pairwise equality of type lists (function parameters, tuple elements):
equal lengths and `Equals` componentwise. -/
def tyEqualsList : Nat → List Ty → List Ty → Bool
  | 0, _, _ => false
  | _ + 1, [], [] => true
  | fuel + 1, a :: as', b :: bs => tyEquals fuel a b && tyEqualsList fuel as' bs
  | _ + 1, _, _ => false

/-- `∃ o ∈ os, t.Equals(o)` — the inner loop of `UnionType.Equals`. -/
def tyMemEquals : Nat → Ty → List Ty → Bool
  | 0, _, _ => false
  | _ + 1, _, [] => false
  | fuel + 1, t, o :: os => tyEquals fuel t o || tyMemEquals fuel t os

/-- `∀ t ∈ ts, ∃ o ∈ os, t.Equals(o)` — the outer loop of
`UnionType.Equals`. -/
def tyAllMem : Nat → List Ty → List Ty → Bool
  | 0, _, _ => false
  | _ + 1, [], _ => true
  | fuel + 1, t :: ts, os => tyMemEquals fuel t os && tyAllMem fuel ts os

end

end Lunar.Types

namespace Lunar.Types

/-- `∃ el ∈ l, el.Equals(t)` — the loop body shared by `UnionType.Contains`
and by the `Implements`/`Extends` scans of `ClassType.IsAssignableTo` and
`InterfaceType.IsAssignableTo` (all three Go loops are this same scan). -/
def containsEquals (fuel : Nat) : List Ty → Ty → Bool
  | [], _ => false
  | u :: us, t => tyEquals fuel u t || containsEquals fuel us t

/-- The scan of `StringLiteralType.IsAssignableTo` for a `*StringType`
member of a union. -/
def unionHasString : List Ty → Bool
  | [] => false
  | .stringT :: _ => true
  | _ :: us => unionHasString us

/-- The scan of `NumberLiteralType.IsAssignableTo` for a `*NumberType`
member of a union. -/
def unionHasNumber : List Ty → Bool
  | [] => false
  | .number :: _ => true
  | _ :: us => unionHasNumber us

mutual

/-- The `IsAssignableTo` methods of `types.go`.  One case per Go method
of the type on the left, in the Go statement order (`Equals` first, then
`any`, then the shape-specific rules).  Fuelled like `tyString` (the
contravariant parameter rule swaps the arguments, so the recursion is not
structural; ample fuel never runs out). -/
def isAssignableTo : Nat → Ty → Ty → Bool
  | 0, _, _ => false
  | fuel + 1, a, b =>
    match a, b with
    | .number, o =>
      if tyEquals fuel .number o then true
      else match o with
        | .any => true
        | .union os => containsEquals fuel os .number
        | _ => false
    | .stringT, o =>
      if tyEquals fuel .stringT o then true
      else match o with
        | .any => true
        | .union os => containsEquals fuel os .stringT
        | _ => false
    | .boolean, o =>
      if tyEquals fuel .boolean o then true
      else match o with
        | .any => true
        | .union os => containsEquals fuel os .boolean
        | _ => false
    | .nilT, o =>
      if tyEquals fuel .nilT o then true
      else match o with
        | .optionalTy _ => true
        | .any => true
        | .union os => containsEquals fuel os .nilT
        | _ => false
    | .void, o =>
      if tyEquals fuel .void o then true
      else match o with
        | .any => true
        | _ => false
    | .stringLit v, o =>
      if tyEquals fuel (.stringLit v) o then true
      else match o with
        | .any => true
        | .stringT => true
        | .union os => containsEquals fuel os (.stringLit v) || unionHasString os
        | _ => false
    | .numberLit v, o =>
      if tyEquals fuel (.numberLit v) o then true
      else match o with
        | .any => true
        | .number => true
        | .union os => containsEquals fuel os (.numberLit v) || unionHasNumber os
        | _ => false
    | .any, _ => true
    | .array e, o =>
      if tyEquals fuel (.array e) o then true
      else match o with
        | .any => true
        | .array e2 => isAssignableTo fuel e e2
        | _ => false
    | .table k v, o =>
      if tyEquals fuel (.table k v) o then true
      else match o with
        | .any => true
        | .table k2 v2 => isAssignableTo fuel k k2 && isAssignableTo fuel v v2
        | _ => false
    | .func ps r, o =>
      if tyEquals fuel (.func ps r) o then true
      else match o with
        | .any => true
        | .func ps2 r2 =>
          if ps.length = ps2.length then
            paramsContravariant fuel ps ps2 && isAssignableTo fuel r r2
          else false
        | _ => false
    | .union ts, o =>
      if tyEquals fuel (.union ts) o then true
      else match o with
        | .any => true
        | o2 => unionAllAssignable fuel ts o2
    | .optionalTy b2, o =>
      if tyEquals fuel (.optionalTy b2) o then true
      else match o with
        | .any => true
        | .optionalTy b3 => isAssignableTo fuel b2 b3
        | _ => false
    | .tuple es, o =>
      if tyEquals fuel (.tuple es) o then true
      else match o with
        | .any => true
        | .tuple es2 =>
          if es.length = es2.length then tupleAssignable fuel es es2 else false
        | _ => false
    | .classTy n props ms impls ctor abs, o =>
      if tyEquals fuel (.classTy n props ms impls ctor abs) o then true
      else match o with
        | .any => true
        | .interfaceTy n2 p2 m2 e2 => containsEquals fuel impls (.interfaceTy n2 p2 m2 e2)
        | _ => false
    | .interfaceTy n props ms exts, o =>
      if tyEquals fuel (.interfaceTy n props ms exts) o then true
      else match o with
        | .any => true
        | .interfaceTy n2 props2 ms2 e2 =>
          containsEquals fuel exts (.interfaceTy n2 props2 ms2 e2) ||
          (propsSatisfy fuel props props2 && methodsSatisfy fuel ms ms2)
        | _ => false
    | .enumTy n mems, o =>
      if tyEquals fuel (.enumTy n mems) o then true
      else match o with
        | .any => true
        | _ => false
    | .genericAlias n ps b2, o =>
      if tyEquals fuel (.genericAlias n ps b2) o then true
      else match o with
        | .any => true
        | _ => false

/-- The member loop of `UnionType.IsAssignableTo`: every union member is
assignable to `other`. -/
def unionAllAssignable : Nat → List Ty → Ty → Bool
  | 0, _, _ => false
  | _ + 1, [], _ => true
  | fuel + 1, t :: ts, o => isAssignableTo fuel t o && unionAllAssignable fuel ts o

/-- The parameter loop of `FunctionType.IsAssignableTo` (contravariant:
the other function's parameter must be assignable to mine). -/
def paramsContravariant : Nat → List Ty → List Ty → Bool
  | 0, _, _ => false
  | _ + 1, [], _ => true
  | fuel + 1, a :: as', bs => match bs with
    | [] => true
    | b :: bs' => isAssignableTo fuel b a && paramsContravariant fuel as' bs'

/-- The element loop of `TupleType.IsAssignableTo` (covariant pairwise). -/
def tupleAssignable : Nat → List Ty → List Ty → Bool
  | 0, _, _ => false
  | _ + 1, [], _ => true
  | fuel + 1, a :: as', bs => match bs with
    | [] => true
    | b :: bs' => isAssignableTo fuel a b && tupleAssignable fuel as' bs'

/-- The property loop of `InterfaceType.IsAssignableTo`: every property
required by the other interface is present with an assignable type. -/
def propsSatisfy : Nat → List (String × Ty) → List (String × Ty) → Bool
  | 0, _, _ => false
  | _ + 1, _, [] => true
  | fuel + 1, mine, r :: required => propFound fuel mine r && propsSatisfy fuel mine required

/-- Map lookup `t.Properties[propName]` followed by the assignability
check, inlined over the association list (first match = Go map). -/
def propFound : Nat → List (String × Ty) → (String × Ty) → Bool
  | 0, _, _ => false
  | _ + 1, [], _ => false
  | fuel + 1, (m, mt) :: rest, (n, pt) =>
    if m = n then isAssignableTo fuel mt pt else propFound fuel rest (n, pt)

/-- The method loop of `InterfaceType.IsAssignableTo`. -/
def methodsSatisfy :
    Nat → List (String × (List Ty × Ty)) → List (String × (List Ty × Ty)) → Bool
  | 0, _, _ => false
  | _ + 1, _, [] => true
  | fuel + 1, mine, r :: required =>
    methodFound fuel mine r && methodsSatisfy fuel mine required

/-- Map lookup `t.Methods[methodName]` followed by the `*FunctionType`
assignability check. -/
def methodFound :
    Nat → List (String × (List Ty × Ty)) → (String × (List Ty × Ty)) → Bool
  | 0, _, _ => false
  | _ + 1, [], _ => false
  | fuel + 1, (m, (mps, mr)) :: rest, (n, (ps, r)) =>
    if m = n then isAssignableTo fuel (.func mps mr) (.func ps r)
    else methodFound fuel rest (n, (ps, r))

end

/-- `InterfaceType.GetProperty`'s search of the extended interfaces: own
properties first, then the directly extended interfaces, recursively
(non-interface entries cannot occur but are skipped).  Fuelled: the Go
recursion dives into the head's `Extends` list, which is not structural
descent on the list argument; ample fuel never runs out. -/
def ifaceGetPropIn : Nat → List Ty → String → Option Ty
  | 0, _, _ => none
  | _ + 1, [], _ => none
  | fuel + 1, e :: rest, name =>
    match e with
    | .interfaceTy _ props _ exts =>
      match lookupAssoc props name with
      | some t => some t
      | none =>
        match ifaceGetPropIn fuel exts name with
        | some t => some t
        | none => ifaceGetPropIn fuel rest name
    | _ => ifaceGetPropIn fuel rest name

/-- `InterfaceType.GetProperty` on an interface's own fields. -/
def ifaceGetProperty (fuel : Nat) (props : List (String × Ty)) (exts : List Ty)
    (name : String) : Option Ty :=
  match lookupAssoc props name with
  | some t => some t
  | none => ifaceGetPropIn fuel exts name

/-- `InterfaceType.GetMethod`'s search of the extended interfaces, same
order and fuelling as `ifaceGetPropIn`. -/
def ifaceGetMethodIn : Nat → List Ty → String → Option (List Ty × Ty)
  | 0, _, _ => none
  | _ + 1, [], _ => none
  | fuel + 1, e :: rest, name =>
    match e with
    | .interfaceTy _ _ ms exts =>
      match lookupAssoc ms name with
      | some t => some t
      | none =>
        match ifaceGetMethodIn fuel exts name with
        | some t => some t
        | none => ifaceGetMethodIn fuel rest name
    | _ => ifaceGetMethodIn fuel rest name

/-- `InterfaceType.GetMethod` on an interface's own fields. -/
def ifaceGetMethod (fuel : Nat) (ms : List (String × (List Ty × Ty))) (exts : List Ty)
    (name : String) : Option (List Ty × Ty) :=
  match lookupAssoc ms name with
  | some t => some t
  | none => ifaceGetMethodIn fuel exts name

/-- `EnumType.GetMemberType`: every member carries the enum type itself
(Go stores a pointer to the enum object; the embedding rebuilds it). -/
def enumGetMemberType (name : String) (memberNames : List String) (member : String) :
    Option Ty :=
  if member ∈ memberNames then some (.enumTy name memberNames) else none

/-- `IsNumericType` (`*NumberType` only — number literal types do not
count, exactly as in Go). -/
def IsNumericType : Ty → Bool
  | .number => true
  | _ => false

/-- `IsBooleanType`. -/
def IsBooleanType : Ty → Bool
  | .boolean => true
  | _ => false

/-- `IsVoidType`. -/
def IsVoidType : Ty → Bool
  | .void => true
  | _ => false

end Lunar.Types

namespace Lunar.Check
open Lunar.Types

/-- `types.TypeError`. -/
structure TypeError where
  message : String
  line : Nat
  column : Nat
deriving DecidableEq, Repr

/-- One scope of `types.Environment`: its `store` and `constVars` maps. -/
structure Frame where
  store : List (String × Ty)
  constVars : List String
deriving Repr

/-- The environment is the chain of scopes, innermost first (Go links them
through the `outer` pointer).  `NewEnclosedEnvironment` is consing an empty
frame.  Go's save/restore pattern (`prevEnv := c.env … c.env = prevEnv`)
always restores across a balanced push, and all writes in between go to the
pushed frame or — before the push — to the saved frame itself (which the Go
pointer keeps); popping the pushed frame models both behaviours exactly. -/
abbrev Env := List Frame

def emptyFrame : Frame := ⟨[], []⟩

/-- `Environment.Get`: lookup walking outward. -/
def envGet : Env → String → Option Ty
  | [], _ => none
  | f :: outer, n =>
    match lookupAssoc f.store n with
    | some t => some t
    | none => envGet outer n

/-- `Environment.Set` (writes the innermost scope). -/
def envSet : Env → String → Ty → Env
  | [], _, _ => []
  | f :: outer, n, t => { f with store := insertAssoc f.store n t } :: outer

/-- `Environment.SetConst`. -/
def envSetConst : Env → String → Ty → Env
  | [], _, _ => []
  | f :: outer, n, t =>
    { f with store := insertAssoc f.store n t, constVars := n :: f.constVars } :: outer

/-- `Environment.IsConst` (Go only ever stores `true` in `constVars`). -/
def envIsConst : Env → String → Bool
  | [], _ => false
  | f :: outer, n => f.constVars.contains n || envIsConst outer n

/-- `types.Checker`: environment, error list, the five registries, and the
current function return type.  Registry values are `Ty` (for
`genericTypeAliases` always a `.genericAlias`). -/
structure Checker where
  env : Env
  errors : List TypeError
  classes : List (String × Ty)
  interfaces : List (String × Ty)
  enums : List (String × Ty)
  typeAliases : List (String × Ty)
  genericTypeAliases : List (String × Ty)
  currentFunctionReturnType : Option Ty
deriving Repr

/-- `NewChecker`: a root scope pre-populated with the six built-in types
(in the `env.Set` order of the Go constructor). -/
def NewChecker : Checker :=
  let env := [("number", Ty.number), ("string", Ty.stringT), ("boolean", Ty.boolean),
      ("nil", Ty.nilT), ("void", Ty.void), ("any", Ty.any)].foldl
    (fun e (p : String × Ty) => envSet e p.1 p.2) ([emptyFrame] : Env)
  { env := env, errors := [], classes := [], interfaces := [], enums := [],
    typeAliases := [], genericTypeAliases := [], currentFunctionReturnType := none }

/-- `Checker.addError`: append a diagnostic carrying the token position. -/
def addError (c : Checker) (message : String) (tok : Tok) : Checker :=
  { c with errors := c.errors ++ [⟨message, tok.line, tok.column⟩] }

/-- `c.env = NewEnclosedEnvironment(c.env)`. -/
def pushScope (c : Checker) : Checker := { c with env := emptyFrame :: c.env }

/-- `c.env = prevEnv` across one balanced push (see `Env`). -/
def popScope (c : Checker) : Checker := { c with env := c.env.tail }

mutual

/-- `Checker.resolveTypeExpression` (`check.go`).  `none` is the Go `nil`
expression (returns `any` at the top of the function).  The `fuel`
parameter only bounds recursion depth — Go has none and can in fact
recurse forever through a self-referential generic alias; every concrete
evaluation in this file uses ample fuel, and running out silently yields
`any`.  Fuel decreases on every call so the mutual block is structurally
recursive and evaluates in the kernel. -/
def resolveTypeExpression : Nat → Checker → Option TypeExpr → Ty × Checker
  | _, c, none => (.any, c)
  | 0, c, some _ => (.any, c)
  | fuel + 1, c, some e =>
    match e with
    | .ident tok v =>
      match envGet c.env v with
      | some t => (t, c)
      | none =>
        match lookupAssoc c.classes v with
        | some t => (t, c)
        | none =>
          match lookupAssoc c.interfaces v with
          | some t => (t, c)
          | none =>
            match lookupAssoc c.enums v with
            | some t => (t, c)
            | none =>
              match lookupAssoc c.typeAliases v with
              | some t => (t, c)
              | none => (.any, addError c ("Unknown type '" ++ v ++ "'") tok)
    | .arrayT _ elt =>
      let (t, c) := resolveTypeExpression fuel c elt
      (.array t, c)
    | .tableT _ k v =>
      let (kt, c) := resolveTypeExpression fuel c k
      let (vt, c) := resolveTypeExpression fuel c v
      (.table kt vt, c)
    | .unionT _ ts =>
      let (flat, c) := resolveUnionMembers fuel c ts
      (.union flat, c)
    | .tupleT _ ts =>
      let (es, c) := resolveTypeList fuel c ts
      (.tuple es, c)
    | .funcT _ ps ret =>
      let (pts, c) := resolveTypeList fuel c ps
      let (rt, c) :=
        match ret with
        | none => (Ty.void, c)
        | some r => resolveTypeExpression fuel c (some r)
      (.func pts rt, c)
    | .genericT _ base args =>
      match base with
      | some (.ident _ bv) =>
        match lookupAssoc c.genericTypeAliases bv with
        | some (.genericAlias name typeParams body) =>
          let (typeArgs, c) := resolveTypeList fuel c args
          if typeArgs.length ≠ typeParams.length then
            (.any, addError c ("Generic type '" ++ name ++ "' expects " ++
              toString typeParams.length ++ " type arguments, got " ++
              toString typeArgs.length) Tok.zero)
          else
            substituteTypeParams fuel c body typeParams typeArgs
        | _ => resolveTypeExpression fuel c base
      | _ => resolveTypeExpression fuel c base
    | .stringLit _ v => (.stringLit v, c)
    | .numberLit _ v => (.numberLit v, c)
    | .optionalT _ _ =>
      (.any, addError c "Cannot resolve type expression: *ast.OptionalType" Tok.zero)

/-- The member loop of the `*ast.UnionType` case: resolve each member and
splice in the members of any union result (flattening one level). -/
def resolveUnionMembers : Nat → Checker → List (Option TypeExpr) → List Ty × Checker
  | 0, c, _ => ([], c)
  | _ + 1, c, [] => ([], c)
  | fuel + 1, c, t :: ts =>
    let (resolved, c) := resolveTypeExpression fuel c t
    let (rest, c) := resolveUnionMembers fuel c ts
    match resolved with
    | .union us => (us ++ rest, c)
    | r => (r :: rest, c)

/-- Elementwise resolution (tuple members, generic type arguments, function
parameter types; a `nil` element resolves to `any` through the `nil` guard
of `resolveTypeExpression`). -/
def resolveTypeList : Nat → Checker → List (Option TypeExpr) → List Ty × Checker
  | 0, c, _ => ([], c)
  | _ + 1, c, [] => ([], c)
  | fuel + 1, c, t :: ts =>
    let (r, c) := resolveTypeExpression fuel c t
    let (rest, c) := resolveTypeList fuel c ts
    (r :: rest, c)

/-- `Checker.substituteTypeParams`: resolve the alias body in a child
scope binding each parameter to its argument (Go builds a map from the
zipped lists and `Set`s each entry; with duplicate parameter names the
later binding wins in both models). -/
def substituteTypeParams :
    Nat → Checker → Option TypeExpr → List String → List Ty → Ty × Checker
  | 0, c, _, _, _ => (.any, c)
  | _ + 1, c, none, _, _ => (.any, c)
  | fuel + 1, c, some body, typeParams, typeArgs =>
    let c := pushScope c
    let c := (typeParams.zip typeArgs).foldl
      (fun c pt => { c with env := envSet c.env pt.1 pt.2 }) c
    let (result, c) := resolveTypeExpression fuel c (some body)
    (result, popScope c)

end

end Lunar.Check

namespace Lunar.Check
open Lunar.Types

/-- `Checker.checkIdentifier`. -/
def checkIdentifier (c : Checker) (tok : Tok) (v : String) : Ty × Checker :=
  match envGet c.env v with
  | some t => (t, c)
  | none => (.any, addError c ("Undefined variable '" ++ v ++ "'") tok)

mutual

/-- `Checker.checkExpression`.  `none` is Go's `nil` expression (returns
`Void`).  The per-node helpers of `check.go` (`checkPrefixExpression`,
`checkInfixExpression`, `checkCallExpression`, `checkDotExpression`,
`checkIndexExpression`, `checkTableLiteral`) are transcribed inline in the
corresponding cases, marked by comments.  Go node kinds not in its switch
(e.g. `SuperExpression`) fall to its `default => Any`; they are not
representable in `Expr`, so every constructor has an explicit case.
The `fuel` bounds expression depth (Go recurses on the node structure and
always terminates; ample fuel makes the `0` branch unreachable). -/
def checkExpression : Nat → Checker → Option Expr → Ty × Checker
  | _, c, none => (.void, c)
  | 0, c, some _ => (.any, c)
  | fuel + 1, c, some e =>
    match e with
    | .ident tok v => checkIdentifier c tok v
    | .numberLit _ v => (.numberLit v, c)
    | .stringLit _ v => (.stringLit v, c)
    | .booleanLit _ _ => (.boolean, c)
    | .nilLit _ => (.nilT, c)
    | .tableLit _ values pairs =>
      -- Checker.checkTableLiteral: a table whose entries are all
      -- `ident = value` pairs (and no positional values) becomes an
      -- anonymous structural interface; everything else is `table<any, any>`.
      if values.length == 0 && pairs.length > 0 then
        match checkTableLiteralPairs fuel c pairs [] with
        | (some props, c) => (.interfaceTy "<table literal>" props [] [], c)
        | (none, c) => (.table .any .any, c)
      else (.table .any .any, c)
    | .prefixExpr tok op right =>
      -- Checker.checkPrefixExpression
      let (rightType, c) := checkExpression fuel c (some right)
      match op with
      | "-" =>
        let c := if !IsNumericType rightType && !tyEquals fuel rightType .any then
            addError c ("Unary operator '-' cannot be applied to type '" ++
              tyString fuel rightType ++ "'") tok
          else c
        (.number, c)
      | "not" => (.boolean, c)
      | _ => (.any, c)
    | .infixExpr tok op left right =>
      -- Checker.checkInfixExpression
      let (leftType, c) := checkExpression fuel c (some left)
      let (rightType, c) := checkExpression fuel c (some right)
      match op with
      | "+" | "-" | "*" | "/" | "%" | "^" =>
        let c := if !IsNumericType leftType && !tyEquals fuel leftType .any then
            addError c ("Operator '" ++ op ++ "' cannot be applied to type '" ++
              tyString fuel leftType ++ "'") tok
          else c
        let c := if !IsNumericType rightType && !tyEquals fuel rightType .any then
            addError c ("Operator '" ++ op ++ "' cannot be applied to type '" ++
              tyString fuel rightType ++ "'") tok
          else c
        (.number, c)
      | "==" | "!=" | "<" | "<=" | ">" | ">=" => (.boolean, c)
      | "and" | "or" => (.boolean, c)
      | ".." => (.stringT, c)
      | _ => (.any, c)
    | .call tok f args =>
      -- Checker.checkCallExpression: the target must be a `*FunctionType`;
      -- there is no case for class types, so a call whose target is a class
      -- reaches the `Cannot call` diagnostic (claim C2).
      let (funcType, c) := checkExpression fuel c (some f)
      match funcType with
      | .func params ret =>
        if args.length ≠ params.length then
          (ret, addError c ("Function expects " ++ toString params.length ++
            " arguments, got " ++ toString args.length) tok)
        else
          (ret, checkCallArgs fuel c args params tok 1)
      | ft =>
        let c := if !tyEquals fuel ft .any then
            addError c ("Cannot call type '" ++ tyString fuel ft ++ "'") tok
          else c
        (.any, c)
    | .dot tok left right =>
      -- Checker.checkDotExpression
      let (leftType, c) := checkExpression fuel c (some left)
      match right with
      | .ident _ propertyName =>
        match leftType with
        | .classTy n props ms _ _ _ =>
          match lookupAssoc props propertyName with
          | some t => (t, c)
          | none =>
            match lookupAssoc ms propertyName with
            | some (ps, r) => (.func ps r, c)
            | none =>
              (.any, addError c ("Type '" ++ n ++ "' has no property or method '" ++
                propertyName ++ "'") tok)
        | .interfaceTy n props ms exts =>
          match ifaceGetProperty fuel props exts propertyName with
          | some t => (t, c)
          | none =>
            match ifaceGetMethod fuel ms exts propertyName with
            | some (ps, r) => (.func ps r, c)
            | none =>
              (.any, addError c ("Type '" ++ n ++ "' has no property or method '" ++
                propertyName ++ "'") tok)
        | .enumTy n mems =>
          match enumGetMemberType n mems propertyName with
          | some t => (t, c)
          | none =>
            (.any, addError c ("Enum '" ++ n ++ "' has no member '" ++
              propertyName ++ "'") tok)
        | _ => (.any, c)
      | _ => (.any, addError c "Right side of dot expression must be an identifier" tok)
    | .indexExpr tok left index =>
      -- Checker.checkIndexExpression
      let (leftType, c) := checkExpression fuel c (some left)
      let (indexType, c) := checkExpression fuel c (some index)
      match leftType with
      | .array elem =>
        let c := if !IsNumericType indexType && !tyEquals fuel indexType .any then
            addError c ("Array index must be number, got '" ++
              tyString fuel indexType ++ "'") tok
          else c
        (elem, c)
      | .table k v =>
        let c := if !isAssignableTo fuel indexType k then
            addError c ("Table key must be '" ++ tyString fuel k ++ "', got '" ++
              tyString fuel indexType ++ "'") tok
          else c
        (v, c)
      | _ => (.any, c)

/-- The pair loop of `Checker.checkTableLiteral`.  Go ranges over the
`Pairs` map in unspecified order; the embedding uses insertion order (this
affects only the order of diagnostics from the value expressions and which
pairs are visited before a non-identifier key stops the scan — nothing any
claim depends on). -/
def checkTableLiteralPairs : Nat → Checker → List (Expr × Expr) →
    List (String × Ty) → Option (List (String × Ty)) × Checker
  | 0, c, _, props => (some props, c)
  | _ + 1, c, [], props => (some props, c)
  | fuel + 1, c, (k, v) :: rest, props =>
    match k with
    | .ident _ name =>
      let (vt, c) := checkExpression fuel c (some v)
      checkTableLiteralPairs fuel c rest (insertAssoc props name vt)
    | _ => (none, c)

/-- The argument loop of `Checker.checkCallExpression` (`i` is the 1-based
argument number used in the diagnostic). -/
def checkCallArgs : Nat → Checker → List Expr → List Ty → Tok → Nat → Checker
  | 0, c, _, _, _, _ => c
  | _ + 1, c, [], _, _, _ => c
  | _ + 1, c, _ :: _, [], _, _ => c
  | fuel + 1, c, a :: as', p :: ps', tok, i =>
    let (argType, c) := checkExpression fuel c (some a)
    let c := if !isAssignableTo fuel argType p then
        addError c ("Argument " ++ toString i ++ ": cannot pass type '" ++
          tyString fuel argType ++ "' to parameter of type '" ++ tyString fuel p ++ "'") tok
      else c
    checkCallArgs fuel c as' ps' tok (i + 1)

end

end Lunar.Check

namespace Lunar.Check
open Lunar.Types

/-- The parameter-type loop shared by `checkFunctionDeclaration` and
`checkDeclareStatement` (explicit `nil` check yielding `Any`) and by
`registerClass`/`registerInterface` (which pass `param.Type` straight into
`resolveTypeExpression`, whose own `nil` guard yields `Any` — the same
result, so one transcription serves all call sites). -/
def resolveParamTypes (fuel : Nat) (c : Checker) : List Param → List Ty × Checker
  | [] => ([], c)
  | p :: ps =>
    let (t, c) := resolveTypeExpression fuel c p.type?
    let (ts, c) := resolveParamTypes fuel c ps
    (t :: ts, c)

/-- The parameter loop of constructor/method body checking
(`checkClassDeclaration`): resolve each parameter's annotation (or `Any`)
and bind it in the current scope. -/
def resolveAndBindParams (fuel : Nat) (c : Checker) : List Param → Checker
  | [] => c
  | p :: ps =>
    let (t, c) := resolveTypeExpression fuel c p.type?
    let c := { c with env := envSet c.env p.name t }
    resolveAndBindParams fuel c ps

/-- `c.env.Set(param.Name.Value, params[i])` loop of
`checkFunctionDeclaration` (types already resolved). -/
def bindParams (c : Checker) : List (Param × Ty) → Checker
  | [] => c
  | (p, t) :: ps => bindParams { c with env := envSet c.env p.name t } ps

/-- The generic-parameter loop `c.env.Set(genericParam.Value, Any)`. -/
def bindGenericsAny (c : Checker) (gps : List String) : Checker :=
  gps.foldl (fun c g => { c with env := envSet c.env g .any }) c

/-- The property loop of `registerClass`/`registerInterface`/
`registerTypeAlias` (object shapes): resolve each property's type and add
it to the properties map. -/
def registerProps (fuel : Nat) (c : Checker) :
    List Property → List (String × Ty) → List (String × Ty) × Checker
  | [], acc => (acc, c)
  | p :: ps, acc =>
    let (t, c) := resolveTypeExpression fuel c p.type?
    registerProps fuel c ps (insertAssoc acc p.name t)

/-- The method loop of `registerClass`/`registerInterface`: resolve each
signature into a `*FunctionType` entry of the methods map. -/
def registerMethodSigs (fuel : Nat) (c : Checker)
    (sigs : List (String × List Param × Option TypeExpr)) 
    (acc : List (String × (List Ty × Ty))) : List (String × (List Ty × Ty)) × Checker :=
  match sigs with
  | [] => (acc, c)
  | (name, params, ret) :: rest =>
    let (ps, c) := resolveParamTypes fuel c params
    let (rt, c) :=
      match ret with
      | none => (Ty.void, c)
      | some r => resolveTypeExpression fuel c (some r)
    registerMethodSigs fuel c rest (insertAssoc acc name (ps, rt))

/-- The `Implements`/`Extends` resolution loop of `registerClass` and
`registerInterface`: identifiers are looked up in the *interfaces registry
as it stands now*; a miss reports `Interface '…' not found`;
non-identifier entries are skipped. -/
def resolveInterfaceRefs (c : Checker) : List Expr → List Ty × Checker
  | [] => ([], c)
  | e :: rest =>
    match e with
    | .ident tok v =>
      match lookupAssoc c.interfaces v with
      | some it =>
        let (others, c) := resolveInterfaceRefs c rest
        (it :: others, c)
      | none =>
        let c := addError c ("Interface '" ++ v ++ "' not found") tok
        resolveInterfaceRefs c rest
    | _ => resolveInterfaceRefs c rest

/-- `Checker.registerClass`.  The `ClassType` shell starts with empty maps
and the Go zero values for `Constructor` (`nil`) and `IsAbstract`
(`false`) — `registerClass` never fills them in.  The `implements` clause
is resolved against the interfaces registry *before* the class itself is
registered (claim C4 turns on this order). -/
def registerClass (fuel : Nat) (c : Checker) (name : String)
    (genericParams : List String) (properties : List Property)
    (methods : List FuncDecl) (implementsE : List Expr) : Checker :=
  let hasGenerics := decide (genericParams ≠ [])
  let c := if hasGenerics then bindGenericsAny (pushScope c) genericParams else c
  let (props, c) := registerProps fuel c properties []
  let (ms, c) := registerMethodSigs fuel c
    (methods.map (fun m => (m.name, m.parameters, m.returnType))) []
  let (impls, c) := resolveInterfaceRefs c implementsE
  let c := if hasGenerics then popScope c else c
  let classType := Ty.classTy name props ms impls none false
  { c with classes := insertAssoc c.classes name classType,
           env := envSet c.env name classType }

/-- `Checker.registerInterface`. -/
def registerInterface (fuel : Nat) (c : Checker) (name : String)
    (methods : List IfaceMethod) (properties : List Property)
    (extendsE : List Expr) : Checker :=
  let (props, c) := registerProps fuel c properties []
  let (ms, c) := registerMethodSigs fuel c
    (methods.map (fun m => (m.name, m.parameters, m.returnType))) []
  let (exts, c) := resolveInterfaceRefs c extendsE
  let interfaceType := Ty.interfaceTy name props ms exts
  { c with interfaces := insertAssoc c.interfaces name interfaceType,
           env := envSet c.env name interfaceType }

/-- `Checker.registerEnum`: the enum type is registered *before* the member
loop (in Go the members map of the already-registered object then grows;
here the completed member-name list is used throughout — observationally
the same unless a member's value expression dereferences a later member of
the same enum, which no claim exercises).  Member value expressions are
checked for side-effect diagnostics only. -/
def registerEnum (fuel : Nat) (c : Checker) (name : String)
    (members : List EnumMember) : Checker :=
  let memberNames := members.map (·.name)
  let enumType := Ty.enumTy name memberNames
  let c := { c with enums := insertAssoc c.enums name enumType,
                    env := envSet c.env name enumType }
  members.foldl
    (fun c m =>
      match m.value? with
      | some v => (checkExpression fuel c (some v)).2
      | none => c) c

/-- `Checker.registerTypeAlias`: generic aliases store their unresolved
body; plain aliases resolve now; an object shape becomes an interface
type; otherwise `Any`. -/
def registerTypeAlias (fuel : Nat) (c : Checker) (name : String)
    (genericParams : List String) (type? : Option TypeExpr)
    (properties : List Property) : Checker :=
  if genericParams ≠ [] then
    let ga := Ty.genericAlias name genericParams type?
    { c with genericTypeAliases := insertAssoc c.genericTypeAliases name ga,
             env := envSet c.env name ga }
  else
    let (aliasType, c) :=
      match type? with
      | some t => resolveTypeExpression fuel c (some t)
      | none =>
        if properties.length > 0 then
          let (props, c) := registerProps fuel c properties []
          (Ty.interfaceTy name props [] [], c)
        else (Ty.any, c)
    { c with typeAliases := insertAssoc c.typeAliases name aliasType,
             env := envSet c.env name aliasType }

/-- `Checker.registerTypeDefinition` (pass 1 dispatch; `declare` recurses
into the wrapped declaration; note there is no `export` case). -/
def registerTypeDefinition (fuel : Nat) (c : Checker) : Statement → Checker
  | .classDecl _ name gps _ props methods _ impls _ =>
    registerClass fuel c name gps props methods impls
  | .interfaceDecl _ name ms props exts =>
    registerInterface fuel c name ms props exts
  | .enumDecl _ name members => registerEnum fuel c name members
  | .typeDecl _ name gps t? props => registerTypeAlias fuel c name gps t? props
  | .declareS _ decl? =>
    match decl? with
    | some d => registerTypeDefinition fuel c d
    | none => c
  | _ => c

/-- `Checker.checkDeclareStatement` (pass 2): ambient declarations
register signatures only; class/interface/enum/type declarations were
already handled in pass 1. -/
def checkDeclareStatement (fuel : Nat) (c : Checker) : Option Statement → Checker
  | none => c
  | some decl =>
    match decl with
    | .varDecl _ isConst name type? _ =>
      match type? with
      | some t =>
        let (declaredType, c) := resolveTypeExpression fuel c (some t)
        if isConst then { c with env := envSetConst c.env name declaredType }
        else { c with env := envSet c.env name declaredType }
      | none => { c with env := envSet c.env name .any }
    | .funcDecl (.mk _ name _ params ret _ _ _ _) =>
      let (ps, c) := resolveParamTypes fuel c params
      let (rt, c) :=
        match ret with
        | none => (Ty.void, c)
        | some r => resolveTypeExpression fuel c (some r)
      { c with env := envSet c.env name (.func ps rt) }
    | _ => c

/-- `Checker.checkVariableDeclaration`. -/
def checkVariableDeclaration (fuel : Nat) (c : Checker) (tok : Tok)
    (isConstant : Bool) (name : String) (type? : Option TypeExpr)
    (value? : Option Expr) : Checker :=
  let (declaredType?, c) :=
    match type? with
    | some t =>
      let (dt, c) := resolveTypeExpression fuel c (some t)
      (some dt, c)
    | none => ((none : Option Ty), c)
  let (valueType, c) :=
    match value? with
    | some v => checkExpression fuel c (some v)
    | none => (Ty.nilT, c)
  match declaredType? with
  | some declaredType =>
    let c := if !isAssignableTo fuel valueType declaredType then
        addError c ("Cannot assign type '" ++ tyString fuel valueType ++
          "' to variable of type '" ++ tyString fuel declaredType ++ "'") tok
      else c
    if isConstant then { c with env := envSetConst c.env name declaredType }
    else { c with env := envSet c.env name declaredType }
  | none =>
    if isConstant then { c with env := envSetConst c.env name valueType }
    else { c with env := envSet c.env name valueType }

/-- The body of `Checker.checkAssignmentStatement` past the const guard. -/
def checkAssignmentRest (fuel : Nat) (c : Checker) (tok : Tok) (nameE : Expr)
    (valueE : Expr) : Checker :=
  let (targetType, c) := checkExpression fuel c (some nameE)
  let (valueType, c) := checkExpression fuel c (some valueE)
  if !isAssignableTo fuel valueType targetType then
    addError c ("Cannot assign type '" ++ tyString fuel valueType ++ "' to type '" ++
      tyString fuel targetType ++ "'") tok
  else c

/-- `Checker.checkAssignmentStatement` (assignment to a const identifier
reports and returns early). -/
def checkAssignmentStatement (fuel : Nat) (c : Checker) (tok : Tok) (nameE : Expr)
    (valueE : Expr) : Checker :=
  match nameE with
  | .ident _ v =>
    if envIsConst c.env v then
      addError c ("Cannot assign to const variable '" ++ v ++ "'") tok
    else checkAssignmentRest fuel c tok nameE valueE
  | _ => checkAssignmentRest fuel c tok nameE valueE

/-- `Checker.checkReturnStatement`. -/
def checkReturnStatement (fuel : Nat) (c : Checker) (tok : Tok)
    (value? : Option Expr) : Checker :=
  match c.currentFunctionReturnType with
  | none => addError c "Return statement outside of function" tok
  | some rt =>
    match value? with
    | none =>
      if !IsVoidType rt then
        addError c ("Function must return a value of type '" ++ tyString fuel rt ++ "'") tok
      else c
    | some v =>
      let (returnType, c) := checkExpression fuel c (some v)
      if !isAssignableTo fuel returnType rt then
        addError c ("Cannot return type '" ++ tyString fuel returnType ++
          "' from function with return type '" ++ tyString fuel rt ++ "'") tok
      else c

/-- The method loop of `Checker.checkClassImplementsInterface`. -/
def checkIfaceMethodsImpl (fuel : Nat) (c : Checker) (className : String)
    (classMethods : List (String × (List Ty × Ty))) (ifaceName : String)
    (ifaceMethods : List (String × (List Ty × Ty))) (tok : Tok) : Checker :=
  match ifaceMethods with
  | [] => c
  | (methodName, (ips, ir)) :: rest =>
    let c :=
      match lookupAssoc classMethods methodName with
      | none =>
        addError c ("Class '" ++ className ++ "' does not implement method '" ++
          methodName ++ "' from interface '" ++ ifaceName ++ "'") tok
      | some (cps, cr) =>
        if !tyEquals fuel (.func ips ir) (.func cps cr) then
          addError c ("Method '" ++ methodName ++ "' in class '" ++ className ++
            "' has signature '" ++ tyString fuel (.func cps cr) ++ "' but interface '" ++
            ifaceName ++ "' requires '" ++ tyString fuel (.func ips ir) ++ "'") tok
        else c
    checkIfaceMethodsImpl fuel c className classMethods ifaceName rest tok

/-- The property loop of `Checker.checkClassImplementsInterface`. -/
def checkIfacePropsImpl (fuel : Nat) (c : Checker) (className : String)
    (classProps : List (String × Ty)) (ifaceName : String)
    (ifaceProps : List (String × Ty)) (tok : Tok) : Checker :=
  match ifaceProps with
  | [] => c
  | (propName, ipt) :: rest =>
    let c :=
      match lookupAssoc classProps propName with
      | none =>
        addError c ("Class '" ++ className ++ "' does not implement property '" ++
          propName ++ "' from interface '" ++ ifaceName ++ "'") tok
      | some cpt =>
        if !tyEquals fuel cpt ipt then
          addError c ("Property '" ++ propName ++ "' in class '" ++ className ++
            "' has type '" ++ tyString fuel cpt ++ "' but interface '" ++ ifaceName ++
            "' requires '" ++ tyString fuel ipt ++ "'") tok
        else c
    checkIfacePropsImpl fuel c className classProps ifaceName rest tok

mutual

/-- `Checker.checkClassImplementsInterface`: methods, then properties,
then the extended interfaces recursively.  (Go ranges over the interface's
maps in unspecified order; the embedding uses insertion order — only the
order of diagnostics can differ.)  Fuelled: Go recurses through the
`Extends` chain of interface values, which is not structural in the list
arguments; every call moves to a subterm, so ample fuel is never
exhausted. -/
def checkClassImplementsInterface : Nat → Checker → String → List (String × Ty) →
    List (String × (List Ty × Ty)) → Ty → Tok → Checker
  | 0, c, _, _, _, _, _ => c
  | fuel + 1, c, className, classProps, classMethods, iface, tok =>
    match iface with
    | .interfaceTy iname iprops ims iexts =>
      let c := checkIfaceMethodsImpl fuel c className classMethods iname ims tok
      let c := checkIfacePropsImpl fuel c className classProps iname iprops tok
      checkImplementsList fuel c className classProps classMethods iexts tok
    | _ => c

/-- The `Implements` loop of `Checker.checkClassDeclaration` and the
`Extends` recursion of `checkClassImplementsInterface`. -/
def checkImplementsList : Nat → Checker → String → List (String × Ty) →
    List (String × (List Ty × Ty)) → List Ty → Tok → Checker
  | 0, c, _, _, _, _, _ => c
  | _ + 1, c, _, _, _, [], _ => c
  | fuel + 1, c, className, classProps, classMethods, i :: rest, tok =>
    let c := checkClassImplementsInterface fuel c className classProps classMethods i tok
    checkImplementsList fuel c className classProps classMethods rest tok

end

mutual

/-- `Checker.checkStatement`.  The per-statement helpers of `check.go`
(`checkIfStatement`, `checkWhileStatement`, `checkForStatement`,
`checkDoStatement`, `checkFunctionDeclaration`, `checkClassDeclaration`,
`checkExportStatement`, `checkImportStatement`) are transcribed inline in
the corresponding cases, marked by comments.  `fuel` bounds statement
nesting (Go recurses on the tree and always terminates; ample fuel makes
the `0` branch unreachable). -/
def checkStatement : Nat → Checker → Statement → Checker
  | 0, c, _ => c
  | fuel + 1, c, stmt =>
    match stmt with
    | .varDecl tok isConst name type? value? =>
      checkVariableDeclaration fuel c tok isConst name type? value?
    | .funcDecl (.mk _ name gps params ret body _ _ _) =>
      -- Checker.checkFunctionDeclaration: resolve the signature (generic
      -- parameters bound to Any in a temporary scope), register the function
      -- in the enclosing scope, then check the body in a child scope with
      -- generics, parameters and the return type in force.
      let hasGenerics := decide (gps ≠ [])
      let c := if hasGenerics then bindGenericsAny (pushScope c) gps else c
      let (ps, c) := resolveParamTypes fuel c params
      let (rt, c) :=
        match ret with
        | none => (Ty.void, c)
        | some r => resolveTypeExpression fuel c (some r)
      let c := if hasGenerics then popScope c else c
      let c := { c with env := envSet c.env name (.func ps rt) }
      let prevReturnType := c.currentFunctionReturnType
      let c := pushScope { c with currentFunctionReturnType := some rt }
      let c := bindGenericsAny c gps
      let c := bindParams c (params.zip ps)
      let c := checkBlockStatement fuel c body
      let c := popScope c
      { c with currentFunctionReturnType := prevReturnType }
    | .exprStmt _ e => (checkExpression fuel c e).2
    | .ret tok value? => checkReturnStatement fuel c tok value?
    | .ifS tok cond cons alt =>
      -- Checker.checkIfStatement
      let (condType, c) := checkExpression fuel c (some cond)
      let c := if !IsBooleanType condType && !tyEquals fuel condType .any then
          addError c ("If condition must be boolean, got '" ++ tyString fuel condType ++ "'") tok
        else c
      let c := checkBlockStatement fuel c cons
      match alt with
      | some a => checkBlockStatement fuel c (some a)
      | none => c
    | .whileS tok cond body =>
      -- Checker.checkWhileStatement
      let (condType, c) := checkExpression fuel c (some cond)
      let c := if !IsBooleanType condType && !tyEquals fuel condType .any then
          addError c ("While condition must be boolean, got '" ++ tyString fuel condType ++ "'") tok
        else c
      checkBlockStatement fuel c body
    | .forS tok varName start? endE step? iterator? isGeneric body =>
      -- Checker.checkForStatement: loop variable bound to number in a new
      -- scope; generic loops need an array/table/any iterator, numeric
      -- loops need numeric bounds and step.
      let c := pushScope c
      let c := { c with env := envSet c.env varName .number }
      let c :=
        if isGeneric then
          let (iterType, c) := checkExpression fuel c iterator?
          match iterType with
          | .array _ => c
          | .table _ _ => c
          | t =>
            if !tyEquals fuel t .any then
              addError c ("Cannot iterate over type '" ++ tyString fuel t ++ "'") tok
            else c
        else
          let (startType, c) := checkExpression fuel c start?
          let (endType, c) := checkExpression fuel c endE
          let c := if !IsNumericType startType && !tyEquals fuel startType .any then
              addError c ("For loop start must be number, got '" ++
                tyString fuel startType ++ "'") tok
            else c
          let c := if !IsNumericType endType && !tyEquals fuel endType .any then
              addError c ("For loop end must be number, got '" ++
                tyString fuel endType ++ "'") tok
            else c
          match step? with
          | some s =>
            let (stepType, c) := checkExpression fuel c (some s)
            if !IsNumericType stepType && !tyEquals fuel stepType .any then
              addError c ("For loop step must be number, got '" ++
                tyString fuel stepType ++ "'") tok
            else c
          | none => c
      let c := checkBlockStatement fuel c body
      popScope c
    | .doS _ body =>
      -- Checker.checkDoStatement
      checkBlockStatement fuel c body
    | .breakS _ => c
    | .blockS _ stmts =>
      -- checkBlockStatement on a block node (never nil here)
      popScope (checkStatementList fuel (pushScope c) stmts)
    | .assign tok nameE valueE => checkAssignmentStatement fuel c tok nameE valueE
    | .classDecl tok name gps _ _ methods ctor? _ _ =>
      -- Checker.checkClassDeclaration: skipped entirely when the class is
      -- not in the registry; otherwise check the constructor body, then the
      -- method bodies, then the implements obligations of the registered
      -- class type.
      match lookupAssoc c.classes name with
      | none => c
      | some classType =>
        let c :=
          match ctor? with
          | none => c
          | some (.mk _ cparams cbody) =>
            let prevReturnType := c.currentFunctionReturnType
            let c := pushScope { c with currentFunctionReturnType := some .void }
            let c := bindGenericsAny c gps
            let c := { c with env := envSet c.env "self" classType }
            let c := resolveAndBindParams fuel c cparams
            let c := checkBlockStatement fuel c cbody
            let c := popScope c
            { c with currentFunctionReturnType := prevReturnType }
        let c := checkClassMethodBodies fuel c gps classType methods
        match classType with
        | .classTy cname cprops cms impls _ _ =>
          checkImplementsList fuel c cname cprops cms impls tok
        | _ => c
    | .interfaceDecl _ _ _ _ _ => c
    | .enumDecl _ _ _ => c
    | .typeDecl _ _ _ _ _ => c
    | .declareS _ decl? => checkDeclareStatement fuel c decl?
    | .exportS _ stmt? =>
      -- Checker.checkExportStatement
      match stmt? with
      | some s => checkStatement fuel c s
      | none => c
    | .importS _ names _ _ =>
      -- Checker.checkImportStatement: imported names are bound as any.
      names.foldl (fun c n => { c with env := envSet c.env n .any }) c

/-- The method-body loop of `Checker.checkClassDeclaration`. -/
def checkClassMethodBodies : Nat → Checker → List String → Ty → List FuncDecl → Checker
  | 0, c, _, _, _ => c
  | _ + 1, c, _, _, [] => c
  | fuel + 1, c, gps, classType, .mk _ _ _ mparams mret mbody _ _ _ :: rest =>
    let prevReturnType := c.currentFunctionReturnType
    let c := pushScope c
    let c := bindGenericsAny c gps
    let (rt, c) :=
      match mret with
      | none => (Ty.void, c)
      | some r => resolveTypeExpression fuel c (some r)
    let c := { c with currentFunctionReturnType := some rt }
    let c := { c with env := envSet c.env "self" classType }
    let c := resolveAndBindParams fuel c mparams
    let c := checkBlockStatement fuel c mbody
    let c := popScope c
    let c := { c with currentFunctionReturnType := prevReturnType }
    checkClassMethodBodies fuel c gps classType rest

/-- `Checker.checkBlockStatement`: nothing on `nil`, otherwise a child
scope around the statement list. -/
def checkBlockStatement : Nat → Checker → Option (List Statement) → Checker
  | 0, c, _ => c
  | _ + 1, c, none => c
  | fuel + 1, c, some stmts => popScope (checkStatementList fuel (pushScope c) stmts)

/-- The statement loop of `Check` pass 2 and of `checkBlockStatement`. -/
def checkStatementList : Nat → Checker → List Statement → Checker
  | 0, c, _ => c
  | _ + 1, c, [] => c
  | fuel + 1, c, s :: rest => checkStatementList fuel (checkStatement fuel c s) rest

end

/-- `Checker.Check`: pass 1 registers type definitions over the top-level
statements, pass 2 checks every statement. -/
def runCheck (fuel : Nat) (c : Checker) (statements : List Statement) : Checker :=
  let c := statements.foldl (registerTypeDefinition fuel) c
  checkStatementList fuel c statements

/-- The package-level `Check` entry point: run both passes on a fresh
checker and surface the error list. -/
def CheckProgram (fuel : Nat) (statements : List Statement) : List TypeError :=
  (runCheck fuel NewChecker statements).errors

/-- Pass 1 alone (used by the idempotency claim C4). -/
def pass1 (fuel : Nat) (c : Checker) (statements : List Statement) : Checker :=
  statements.foldl (registerTypeDefinition fuel) c

end Lunar.Check

namespace Lunar.Parse
open Lunar

/-- The `lexer.TokenType` values the type-expression grammar dispatches on
(`internal/lexer`).  `other` stands for any remaining kind — the type
parser treats all of them uniformly (its `default` branches). -/
inductive TokType where
  | identT | tableK | stringTypeK | numberTypeK | booleanK | anyK | voidK | nilK
  | stringL | numberL
  | lparen | rparen | ltT | gtT | comma | lbracket | rbracket | question | pipe
  | colon | arrow | eofT
  | other (kind : String)
deriving DecidableEq, Repr

/-- The display name of a token type (Go prints the `TokenType` value in
`peekError` diagnostics; no claim depends on the exact spelling). -/
def tokTypeString : TokType → String
  | .identT => "IDENT"
  | .tableK => "TABLE"
  | .stringTypeK => "STRING_TYPE"
  | .numberTypeK => "NUMBER_TYPE"
  | .booleanK => "BOOLEAN"
  | .anyK => "ANY"
  | .voidK => "VOID"
  | .nilK => "NIL"
  | .stringL => "STRING"
  | .numberL => "NUMBER"
  | .lparen => "("
  | .rparen => ")"
  | .ltT => "<"
  | .gtT => ">"
  | .comma => ","
  | .lbracket => "["
  | .rbracket => "]"
  | .question => "?"
  | .pipe => "|"
  | .colon => ":"
  | .arrow => "=>"
  | .eofT => "EOF"
  | .other k => k

/-- A lexed token.  `numValue` carries the value `strconv.ParseFloat`
yields for `literal` on number tokens (Go parses it inside
`parseType`; the float parse itself is not re-modelled — no claim
touches it, and the parse error is discarded by the Go code anyway). -/
structure PTok where
  type : TokType
  literal : String
  line : Nat
  column : Nat
  numValue : Rat
deriving Repr

def eofTok : PTok := ⟨.eofT, "", 0, 0, 0⟩

/-- The parser state: the token stream with a cursor (`curToken` /
`peekToken` are the tokens at `pos` and `pos+1`; the Go lexer yields `EOF`
forever once exhausted) and the accumulated error strings. -/
structure PState where
  tokens : List PTok
  pos : Nat
  errors : List String
deriving Repr

def curToken (st : PState) : PTok := st.tokens.getD st.pos eofTok
def peekToken (st : PState) : PTok := st.tokens.getD (st.pos + 1) eofTok
def nextToken (st : PState) : PState := { st with pos := st.pos + 1 }
def peekTokenIs (st : PState) (t : TokType) : Bool := (peekToken st).type == t

/-- `Parser.peekError`. -/
def peekError (st : PState) (t : TokType) : PState :=
  { st with errors := st.errors ++ ["expected next token to be " ++ tokTypeString t ++
      ", got " ++ tokTypeString (peekToken st).type ++ " instead"] }

/-- `Parser.expectPeek`: advance on match, record a diagnostic otherwise. -/
def expectPeek (st : PState) (t : TokType) : Bool × PState :=
  if peekTokenIs st t then (true, nextToken st) else (false, peekError st t)

/-- A Go run-time panic (here: a failed interface type assertion), made
explicit, and fuel exhaustion of the embedding (the Go loops terminate on
every finite token stream reachable here; ample fuel is used in every
evaluation). -/
inductive PFail where
  | goPanic (msg : String)
  | outOfFuel
deriving DecidableEq, Repr

/-- Parse results: a Go panic aborts everything; otherwise the function
returns its (possibly `nil`) node and the advanced state. -/
abbrev PM (α : Type) := Except PFail (α × PState)

def tokOf (t : PTok) : Tok := ⟨t.literal, t.line, t.column⟩

mutual

/-- `Parser.parseType` (`parser.go`): dispatch on the current token, then
attach suffixes.  The `default` branch returns `nil` without entering
`parseTypeSuffix`. -/
def parseType (fuel : Nat) (st : PState) : PM (Option TypeExpr) :=
  match fuel with
  | 0 => .error .outOfFuel
  | fuel + 1 =>
    match (curToken st).type with
    | .lparen => parseTupleOrFunctionType fuel st
    | .tableK =>
      match parseTableType fuel st with
      | .error e => .error e
      | .ok (typeExpr, st) => parseTypeSuffix fuel st typeExpr typeExpr
    | .stringL =>
      let te := some (.stringLit (tokOf (curToken st)) (curToken st).literal)
      parseTypeSuffix fuel st te te
    | .numberL =>
      let te := some (.numberLit (tokOf (curToken st)) (curToken st).numValue)
      parseTypeSuffix fuel st te te
    | .identT | .stringTypeK | .numberTypeK | .booleanK | .anyK | .voidK | .nilK =>
      let te := some (.ident (tokOf (curToken st)) (curToken st).literal)
      parseTypeSuffix fuel st te te
    | _ => .ok (none, st)

/-- `Parser.parseTypeSuffix`: the high-precedence suffix loop (`[]`, `<…>`,
`?`) followed by the union pass.  `baseType` is the loop-invariant first
argument of the Go function, `currentType` the mutable local.  The `[]`
and `<…>` arms read `baseType.(*ast.Identifier).Token` — an *unchecked*
type assertion that panics when `baseType` is not an identifier node
(claim C5). -/
def parseTypeSuffix (fuel : Nat) (st : PState)
    (baseType currentType : Option TypeExpr) : PM (Option TypeExpr) :=
  match fuel with
  | 0 => .error .outOfFuel
  | fuel + 1 =>
    if peekTokenIs st .lbracket then
      let st := nextToken st
      match expectPeek st .rbracket with
      | (false, st) => .ok (none, st)
      | (true, st) =>
        match baseType with
        | some (.ident tk _) =>
          parseTypeSuffix fuel st baseType (some (.arrayT tk currentType))
        | _ =>
          .error (.goPanic "interface conversion: ast.Expression is not *ast.Identifier")
    else if peekTokenIs st .ltT then
      let st := nextToken st
      let st := nextToken st
      match parseTypeArgs fuel st with
      | .error e => .error e
      | .ok (typeArgs, st) =>
        match expectPeek st .gtT with
        | (false, st) => .ok (none, st)
        | (true, st) =>
          match baseType with
          | some (.ident tk _) =>
            parseTypeSuffix fuel st baseType (some (.genericT tk baseType typeArgs))
          | _ =>
            .error (.goPanic "interface conversion: ast.Expression is not *ast.Identifier")
    else if peekTokenIs st .question then
      let st := nextToken st
      parseTypeSuffix fuel st baseType (some (.optionalT (tokOf (curToken st)) currentType))
    else
      -- checkUnion: the low-precedence union pass
      if peekTokenIs st .pipe then
        let unionToken := peekToken st
        match parseUnionRest fuel st [currentType] with
        | .error e => .error e
        | .ok (types, st) =>
          .ok (some (.unionT (tokOf unionToken) types), st)
      else .ok (currentType, st)

/-- The `<…>` argument loop shared by both suffix passes: first argument,
then `, argument` while a comma follows. -/
def parseTypeArgs (fuel : Nat) (st : PState) : PM (List (Option TypeExpr)) :=
  match fuel with
  | 0 => .error .outOfFuel
  | fuel + 1 =>
    match parseType fuel st with
    | .error e => .error e
    | .ok (first, st) => parseTypeArgsRest fuel st [first]

/-- The comma continuation of `parseTypeArgs`. -/
def parseTypeArgsRest (fuel : Nat) (st : PState) (acc : List (Option TypeExpr)) :
    PM (List (Option TypeExpr)) :=
  match fuel with
  | 0 => .error .outOfFuel
  | fuel + 1 =>
    if peekTokenIs st .comma then
      let st := nextToken st
      let st := nextToken st
      match parseType fuel st with
      | .error e => .error e
      | .ok (t, st) => parseTypeArgsRest fuel st (acc ++ [t])
    else .ok (acc, st)

/-- The `|`-member loop of `parseTypeSuffix`: members are parsed with
`parseNonUnionType` (no nested unions) and appended when non-`nil`. -/
def parseUnionRest (fuel : Nat) (st : PState) (acc : List (Option TypeExpr)) :
    PM (List (Option TypeExpr)) :=
  match fuel with
  | 0 => .error .outOfFuel
  | fuel + 1 =>
    if peekTokenIs st .pipe then
      let st := nextToken st
      let st := nextToken st
      match parseNonUnionType fuel st with
      | .error e => .error e
      | .ok (nextType, st) =>
        match nextType with
        | some t => parseUnionRest fuel st (acc ++ [some t])
        | none => parseUnionRest fuel st acc
    else .ok (acc, st)

/-- `Parser.parseNonUnionType`: the same base dispatch as `parseType`
followed by the high-precedence suffix loop only.  Note the Go
differences from `parseTypeSuffix` transcribed literally: its `[]` arm
uses `p.curToken` for the array node's token (no assertion), while its
`<…>` arm asserts on `typeExpr` (the base), panicking exactly like
`parseTypeSuffix` does. -/
def parseNonUnionType (fuel : Nat) (st : PState) : PM (Option TypeExpr) :=
  match fuel with
  | 0 => .error .outOfFuel
  | fuel + 1 =>
    match (curToken st).type with
    | .lparen => parseTupleOrFunctionType fuel st
    | .tableK =>
      match parseTableType fuel st with
      | .error e => .error e
      | .ok (typeExpr, st) => parseNonUnionSuffix fuel st typeExpr typeExpr
    | .stringL =>
      let te := some (.stringLit (tokOf (curToken st)) (curToken st).literal)
      parseNonUnionSuffix fuel st te te
    | .numberL =>
      let te := some (.numberLit (tokOf (curToken st)) (curToken st).numValue)
      parseNonUnionSuffix fuel st te te
    | .identT | .stringTypeK | .numberTypeK | .booleanK | .anyK | .voidK | .nilK =>
      let te := some (.ident (tokOf (curToken st)) (curToken st).literal)
      parseNonUnionSuffix fuel st te te
    | _ => .ok (none, st)

/-- The suffix loop of `parseNonUnionType` (`typeExpr` is its loop-invariant
base, `currentType` the mutable local). -/
def parseNonUnionSuffix (fuel : Nat) (st : PState)
    (typeExpr currentType : Option TypeExpr) : PM (Option TypeExpr) :=
  match fuel with
  | 0 => .error .outOfFuel
  | fuel + 1 =>
    if peekTokenIs st .lbracket then
      let st := nextToken st
      match expectPeek st .rbracket with
      | (false, st) => .ok (none, st)
      | (true, st) =>
        parseNonUnionSuffix fuel st typeExpr
          (some (.arrayT (tokOf (curToken st)) currentType))
    else if peekTokenIs st .ltT then
      let st := nextToken st
      let st := nextToken st
      match parseTypeArgs fuel st with
      | .error e => .error e
      | .ok (typeArgs, st) =>
        match expectPeek st .gtT with
        | (false, st) => .ok (none, st)
        | (true, st) =>
          match typeExpr with
          | some (.ident tk _) =>
            parseNonUnionSuffix fuel st typeExpr (some (.genericT tk typeExpr typeArgs))
          | _ =>
            .error (.goPanic "interface conversion: ast.Expression is not *ast.Identifier")
    else if peekTokenIs st .question then
      let st := nextToken st
      parseNonUnionSuffix fuel st typeExpr
        (some (.optionalT (tokOf (curToken st)) currentType))
    else .ok (currentType, st)

/-- `Parser.parseTableType`: `table < K , V >`. -/
def parseTableType (fuel : Nat) (st : PState) : PM (Option TypeExpr) :=
  match fuel with
  | 0 => .error .outOfFuel
  | fuel + 1 =>
    let tableToken := curToken st
    match expectPeek st .ltT with
    | (false, st) => .ok (none, st)
    | (true, st) =>
      let st := nextToken st
      match parseType fuel st with
      | .error e => .error e
      | .ok (keyType, st) =>
        match expectPeek st .comma with
        | (false, st) => .ok (none, st)
        | (true, st) =>
          let st := nextToken st
          match parseType fuel st with
          | .error e => .error e
          | .ok (valueType, st) =>
            match expectPeek st .gtT with
            | (false, st) => .ok (none, st)
            | (true, st) =>
              .ok (some (.tableT (tokOf tableToken) keyType valueType), st)

/-- `Parser.parseParameter`: `name` with optional `: type`. -/
def parseParameter (fuel : Nat) (st : PState) : PM (Param × PState) :=
  match fuel with
  | 0 => .error .outOfFuel
  | fuel + 1 =>
    let nameTok := curToken st
    if peekTokenIs st .colon then
      let st := nextToken st
      let st := nextToken st
      match parseType fuel st with
      | .error e => .error e
      | .ok (t, st) => .ok ((⟨tokOf nameTok, nameTok.literal, t⟩, st), st)
    else .ok ((⟨tokOf nameTok, nameTok.literal, none⟩, st), st)

/-- `Parser.parseTupleOrFunctionType`: `(…)` introduces either a function
type (named parameters or a trailing `=>`), a tuple type, or `nil` on the
malformed single-parameter-without-arrow form. -/
def parseTupleOrFunctionType (fuel : Nat) (st : PState) : PM (Option TypeExpr) :=
  match fuel with
  | 0 => .error .outOfFuel
  | fuel + 1 =>
    let parenToken := curToken st
    if peekTokenIs st .rparen then
      let st := nextToken st
      -- empty parameter list: check for an arrow below with params = []
      parseArrowOrEmptyTuple fuel st (tokOf parenToken) []
    else
      let st := nextToken st
      let isNamedParam := (curToken st).type == TokType.identT && peekTokenIs st .colon
      if isNamedParam then
        match parseParameter fuel st with
        | .error e => .error e
        | .ok ((param, _), st) =>
          match parseParamsRest fuel st [param] with
          | .error e => .error e
          | .ok (params, st) =>
            match expectPeek st .rparen with
            | (false, st) => .ok (none, st)
            | (true, st) =>
              parseArrowOrEmptyTuple fuel st (tokOf parenToken)
                (params.map (fun p => p.type?))
      else
        match parseType fuel st with
        | .error e => .error e
        | .ok (first, st) =>
          match parseTypeArgsRest fuel st [first] with
          | .error e => .error e
          | .ok (types, st) =>
            match expectPeek st .rparen with
            | (false, st) => .ok (none, st)
            | (true, st) =>
              if peekTokenIs st .arrow then
                -- anonymous parameters from the element types
                parseArrowOrEmptyTuple fuel st (tokOf parenToken) types
              else
                .ok (some (.tupleT (tokOf parenToken) types), st)

/-- The comma loop of the named-parameter branch of
`parseTupleOrFunctionType`. -/
def parseParamsRest (fuel : Nat) (st : PState) (acc : List Param) : PM (List Param) :=
  match fuel with
  | 0 => .error .outOfFuel
  | fuel + 1 =>
    if peekTokenIs st .comma then
      let st := nextToken st
      let st := nextToken st
      match parseParameter fuel st with
      | .error e => .error e
      | .ok ((param, _), st) => parseParamsRest fuel st (acc ++ [param])
    else .ok (acc, st)

/-- The tail of `parseTupleOrFunctionType`: an arrow yields a function
type, an empty parameter list without an arrow yields the empty tuple, and
a non-empty one yields `nil` (the Go `// Single parameter without arrow -
error?` fallthrough). -/
def parseArrowOrEmptyTuple (fuel : Nat) (st : PState) (parenTok : Tok)
    (params : List (Option TypeExpr)) : PM (Option TypeExpr) :=
  match fuel with
  | 0 => .error .outOfFuel
  | fuel + 1 =>
    if peekTokenIs st .arrow then
      let st := nextToken st
      let st := nextToken st
      match parseType fuel st with
      | .error e => .error e
      | .ok (returnType, st) =>
        .ok (some (.funcT parenTok params returnType), st)
    else
      if params.length == 0 then .ok (some (.tupleT parenTok []), st)
      else .ok (none, st)

end

end Lunar.Parse

namespace Lunar.Gen
open Lunar

/-- One raw source mapping (generated line/column, source line/column —
the source column is `token.Column - 1` over Go `int`, so it is an
integer). -/
structure Mapping where
  generatedLine : Nat
  generatedColumn : Nat
  sourceLine : Nat
  sourceColumn : Int
  name : String
deriving DecidableEq, Repr

/-- `sourcemap.Builder` (`internal/sourcemap/sourcemap.go`): the incremental
source-map builder.  `names` is the Go `map[string]int` from a mapping name
to its index in `namesList`, modelled as an association list (only lookup
and fresh-key insertion are performed on it). -/
structure Builder where
  sourceFile : String
  generatedFile : String
  mappings : List Mapping
  names : List (String × Nat)
  namesList : List String
deriving DecidableEq, Repr

/-- `sourcemap.NewBuilder`: empty mappings, empty `names` map, empty
`namesList`. -/
def NewBuilder (sourceFile generatedFile : String) : Builder :=
  ⟨sourceFile, generatedFile, [], [], []⟩

/-- `Builder.AddMapping`: appends the mapping record; then, when `name` is
non-empty and not yet a key of the `names` map, records `name ↦
len(namesList)` in `names` and appends `name` to `namesList`. -/
def Builder.AddMapping (b : Builder) (genLine genCol srcLine : Nat)
    (srcCol : Int) (name : String) : Builder :=
  let b := { b with
    mappings := b.mappings ++ [⟨genLine, genCol, srcLine, srcCol, name⟩] }
  if name ≠ "" then
    match Types.lookupAssoc b.names name with
    | some _ => b
    | none =>
      { b with names := b.names ++ [(name, b.namesList.length)],
               namesList := b.namesList ++ [name] }
  else b

/-- The enumeration order of a table literal's `Pairs` map.  Go's
`for key, val := range node.Pairs` visits the entries in unspecified
order; the embedding renders each entry to its `"[key] = value"` text in
insertion order (rendering is per-entry, so rendering and reordering
commute) and lets `ord` — constrained to a permutation in the theorems —
pick the emission order of the rendered segments. -/
abbrev PairOrd := List String → List String

/-- `getOperatorPrecedence` (`codegen.go`). -/
def getOperatorPrecedence : String → Nat
  | "or" | "||" => 1
  | "and" | "&&" => 2
  | "<" | ">" | "<=" | ">=" | "~=" | "!=" | "==" => 3
  | ".." => 4
  | "+" | "-" => 5
  | "*" | "/" | "%" => 6
  | "not" | "!" | "unary-" => 7
  | "^" => 8
  | _ => 0

/-- `needsParentheses`: prefix and infix operands are parenthesised under a
prefix operator. -/
def needsParentheses : Expr → Bool
  | .infixExpr _ _ _ _ => true
  | .prefixExpr _ _ _ => true
  | _ => false

/-- `needsParensInInfix`: parenthesise an infix child of lower precedence,
or a same-precedence right child (all operators left-associative except
`^`). -/
def needsParensInInfix (e : Expr) (parentOp : String) (isLeft : Bool) : Bool :=
  match e with
  | .infixExpr _ childOp _ _ =>
    let parentPrec := getOperatorPrecedence parentOp
    let childPrec := getOperatorPrecedence childOp
    if childPrec < parentPrec then true
    else if childPrec == parentPrec && !isLeft then
      parentOp ≠ "^"
    else false
  | _ => false

mutual

/-- `Generator.generateExpression` (`codegen.go`), with
`generateTableLiteral`, `generatePrefixExpression`,
`generateInfixExpression`, `generateCallExpression`,
`generateDotExpression` and `generateIndexExpression` transcribed inline
in the corresponding cases (marked by comments).  `classes` is the
generator's class-name set (read by the call case only); `ord` is the
table-pair enumeration order; `fuel` bounds expression depth (Go recurses
on the node structure and always terminates; ample fuel makes the `0`
branch unreachable). -/
def generateExpression : Nat → PairOrd → List String → Option Expr → String
  | _, _, _, none => ""
  | 0, _, _, some _ => ""
  | fuel + 1, ord, classes, some e =>
    match e with
    | .ident _ v => v
    | .numberLit tok _ => tok.literal
    | .stringLit _ v => "\"" ++ v ++ "\""
    | .booleanLit _ b => if b then "true" else "false"
    | .nilLit _ => "nil"
    | .tableLit _ values pairs =>
      -- Generator.generateTableLiteral
      let valuesPart :=
        if values.length > 0 then
          String.intercalate ", " (generateExpressionList fuel ord classes values)
        else ""
      let pairsPart :=
        if pairs.length > 0 then
          (if values.length > 0 then ", " else "") ++
          String.intercalate ", " (ord (generatePairStrings fuel ord classes pairs))
        else ""
      "\x7b" ++ valuesPart ++ pairsPart ++ "\x7d"
    | .prefixExpr _ op right =>
      -- Generator.generatePrefixExpression
      let operator := if op == "!" then "not" else op
      let rightS := generateExpression fuel ord classes (some right)
      if needsParentheses right then operator ++ " (" ++ rightS ++ ")"
      else operator ++ " " ++ rightS
    | .infixExpr _ op left right =>
      -- Generator.generateInfixExpression
      let leftS := generateExpression fuel ord classes (some left)
      let rightS := generateExpression fuel ord classes (some right)
      let operator :=
        if op == "!=" then "~=" else if op == "&&" then "and"
        else if op == "||" then "or" else op
      let leftS := if needsParensInInfix left operator true then "(" ++ leftS ++ ")" else leftS
      let rightS := if needsParensInInfix right operator false then "(" ++ rightS ++ ")" else rightS
      leftS ++ " " ++ operator ++ " " ++ rightS
    | .call _ f args =>
      -- Generator.generateCallExpression: a call whose target identifier
      -- is a tracked class name becomes `Name.new(...)`.
      let fnS := generateExpression fuel ord classes (some f)
      let fnS :=
        match f with
        | .ident _ v => if classes.contains v then fnS ++ ".new" else fnS
        | _ => fnS
      fnS ++ "(" ++ String.intercalate ", " (generateExpressionList fuel ord classes args) ++ ")"
    | .dot _ left right =>
      -- Generator.generateDotExpression
      generateExpression fuel ord classes (some left) ++ "." ++
        generateExpression fuel ord classes (some right)
    | .indexExpr _ left index =>
      -- Generator.generateIndexExpression
      generateExpression fuel ord classes (some left) ++ "[" ++
        generateExpression fuel ord classes (some index) ++ "]"

/-- Element rendering for argument/value lists. -/
def generateExpressionList : Nat → PairOrd → List String → List Expr → List String
  | 0, _, _, _ => []
  | _ + 1, _, _, [] => []
  | fuel + 1, ord, classes, e :: es =>
    generateExpression fuel ord classes (some e) :: generateExpressionList fuel ord classes es

/-- Render each table pair to its `"[key] = value"` segment (the Go code
formats exactly this for every entry, identifier keys included). -/
def generatePairStrings : Nat → PairOrd → List String → List (Expr × Expr) → List String
  | 0, _, _, _ => []
  | _ + 1, _, _, [] => []
  | fuel + 1, ord, classes, (k, v) :: rest =>
    ("[" ++ generateExpression fuel ord classes (some k) ++ "] = " ++
      generateExpression fuel ord classes (some v)) ::
    generatePairStrings fuel ord classes rest

end

/-- `Generator.generateIndent`: four spaces per level. -/
def generateIndent (indent : Nat) : String :=
  String.join (List.replicate indent "    ")

/-- The enum member loop of `generateEnumDeclaration` (`i` is the 0-based
member index used when no explicit value is given). -/
def generateEnumMembers (fuel : Nat) (ord : PairOrd) (classes : List String)
    (indent : Nat) (members : List EnumMember) (i : Nat) : String :=
  match members with
  | [] => ""
  | m :: rest =>
    generateIndent indent ++ m.name ++ " = " ++
      (match m.value? with
       | some v => generateExpression fuel ord classes (some v)
       | none => toString i) ++ ",\n" ++
    generateEnumMembers fuel ord classes indent rest (i + 1)

/-- The parameter-name list of function/method/constructor headers. -/
def paramNames (params : List Param) : String :=
  String.intercalate ", " (params.map (·.name))

mutual

/-- `Generator.generateStatement` (`codegen.go`).  The generator's mutable
fields that statement generation reads or writes are `indent` and
`classes`; they are threaded explicitly (the source-map fields are touched
only by `Generate`/`write`, see `Generate` below — claim C9).  The
per-statement helpers (`generateVariableDeclaration`,
`generateFunctionDeclaration`, `generateReturnStatement`,
`generateIfStatement`, `generateWhileStatement`, `generateForStatement`,
`generateDoStatement`, `generateBlockStatement`,
`generateAssignmentStatement`, `generateClassDeclaration`,
`generateEnumDeclaration`, `generateExportStatement`,
`generateImportStatement`) are transcribed inline, marked by comments.
Go indexes nested blocks through possibly-nil `*BlockStatement` pointers
without a check (`node.Body.Statements`); such a `nil` would crash Go, so
the embedding treats a `nil` body as empty — no parser output has a `nil`
body outside `declare`, and no claim exercises one. -/
def generateStatement : Nat → PairOrd → Nat → List String → Statement →
    String × List String
  | 0, _, _, classes, _ => ("", classes)
  | fuel + 1, ord, indent, classes, stmt =>
    match stmt with
    | .varDecl _ _ name _ value? =>
      -- Generator.generateVariableDeclaration
      (generateIndent indent ++ "local " ++ name ++
        (match value? with
         | some v => " = " ++ generateExpression fuel ord classes (some v)
         | none => "") ++ "\n", classes)
    | .funcDecl (.mk _ name _ params _ body _ _ _) =>
      -- Generator.generateFunctionDeclaration
      let (bodyS, classes) :=
        match body with
        | some b => generateStatements fuel ord (indent + 1) classes b
        | none => ("", classes)
      (generateIndent indent ++ "function " ++ name ++ "(" ++ paramNames params ++ ")\n" ++
        bodyS ++ generateIndent indent ++ "end\n", classes)
    | .exprStmt _ e => (generateIndent indent ++ generateExpression fuel ord classes e ++ "\n", classes)
    | .ret _ value? =>
      -- Generator.generateReturnStatement
      (generateIndent indent ++ "return" ++
        (match value? with
         | some v => " " ++ generateExpression fuel ord classes (some v)
         | none => "") ++ "\n", classes)
    | .ifS _ cond cons alt =>
      -- Generator.generateIfStatement (the condition is rendered before the
      -- branches, with the class set as of that point — Go writes
      -- sequentially)
      let condS := generateExpression fuel ord classes (some cond)
      let (consS, classes) :=
        match cons with
        | some cs => generateStatements fuel ord (indent + 1) classes cs
        | none => ("", classes)
      let (altS, classes) :=
        match alt with
        | some a =>
          let (s, classes) := generateStatements fuel ord (indent + 1) classes a
          (generateIndent indent ++ "else\n" ++ s, classes)
        | none => ("", classes)
      (generateIndent indent ++ "if " ++ condS ++
        " then\n" ++ consS ++ altS ++ generateIndent indent ++ "end\n", classes)
    | .whileS _ cond body =>
      -- Generator.generateWhileStatement (condition rendered before the body)
      let condS := generateExpression fuel ord classes (some cond)
      let (bodyS, classes) :=
        match body with
        | some b => generateStatements fuel ord (indent + 1) classes b
        | none => ("", classes)
      (generateIndent indent ++ "while " ++ condS ++
        " do\n" ++ bodyS ++ generateIndent indent ++ "end\n", classes)
    | .forS _ varName start? endE step? iterator? isGeneric body =>
      -- Generator.generateForStatement (header expressions rendered before
      -- the body)
      let header :=
        if isGeneric then
          " in " ++ generateExpression fuel ord classes iterator?
        else
          " = " ++ generateExpression fuel ord classes start? ++ ", " ++
            generateExpression fuel ord classes endE ++
            (match step? with
             | some s => ", " ++ generateExpression fuel ord classes (some s)
             | none => "")
      let (bodyS, classes) :=
        match body with
        | some b => generateStatements fuel ord (indent + 1) classes b
        | none => ("", classes)
      (generateIndent indent ++ "for " ++ varName ++ header ++ " do\n" ++ bodyS ++
        generateIndent indent ++ "end\n", classes)
    | .doS _ body =>
      -- Generator.generateDoStatement
      let (bodyS, classes) :=
        match body with
        | some b => generateStatements fuel ord (indent + 1) classes b
        | none => ("", classes)
      (generateIndent indent ++ "do\n" ++ bodyS ++ generateIndent indent ++ "end\n", classes)
    | .breakS _ => (generateIndent indent ++ "break\n", classes)
    | .blockS _ stmts =>
      -- Generator.generateBlockStatement (no indent change)
      generateStatements fuel ord indent classes stmts
    | .assign _ nameE valueE =>
      -- Generator.generateAssignmentStatement
      (generateIndent indent ++ generateExpression fuel ord classes (some nameE) ++ " = " ++
        generateExpression fuel ord classes (some valueE) ++ "\n", classes)
    | .classDecl _ name _ _ _ methods ctor? _ _ =>
      -- Generator.generateClassDeclaration: the class name is tracked
      -- *before* any body is generated, then the class table, the `.new`
      -- factory from the constructor, and the colon-form methods.
      let classes := name :: classes
      let head := generateIndent indent ++ "local " ++ name ++ " = \x7b\x7d\n" ++
        generateIndent indent ++ name ++ ".__index = " ++ name ++ "\n\n"
      let (ctorS, classes) :=
        match ctor? with
        | none => ("", classes)
        | some (.mk _ cparams cbody) =>
          let (bodyS, classes) :=
            match cbody with
            | some b => generateStatements fuel ord (indent + 1) classes b
            | none => ("", classes)
          (generateIndent indent ++ "function " ++ name ++ ".new(" ++ paramNames cparams ++
            ")\n" ++
            generateIndent (indent + 1) ++ "local self = setmetatable(\x7b\x7d, " ++ name ++ ")\n" ++
            bodyS ++
            generateIndent (indent + 1) ++ "return self\n" ++
            generateIndent indent ++ "end\n\n", classes)
      let (methodsS, classes) := generateClassMethods fuel ord indent classes name methods
      (head ++ ctorS ++ methodsS, classes)
    | .interfaceDecl _ _ _ _ _ => ("", classes)
    | .enumDecl _ name members =>
      -- Generator.generateEnumDeclaration
      (generateIndent indent ++ "local " ++ name ++ " = \x7b\n" ++
        generateEnumMembers fuel ord classes (indent + 1) members 0 ++
        generateIndent indent ++ "\x7d\n", classes)
    | .typeDecl _ _ _ _ _ => ("", classes)
    | .declareS _ _ => ("", classes)
    | .exportS _ stmt? =>
      -- Generator.generateExportStatement: the wrapped statement verbatim.
      match stmt? with
      | some s => generateStatement fuel ord indent classes s
      | none => ("", classes)
    | .importS _ names module isWildcard =>
      -- Generator.generateImportStatement
      if isWildcard then
        let parts := module.splitOn "/"
        let varName := (parts.getLastD module).stripSuffix ".lunar"
        (generateIndent indent ++ "local " ++ varName ++ " = require(\"" ++ module ++
          "\")\n", classes)
      else
        let tempVar := "_" ++ ((module.replace "/" "_").replace "." "_")
        (generateIndent indent ++ "local " ++ tempVar ++ " = require(\"" ++ module ++
          "\")\n" ++
          String.join (names.map (fun n =>
            generateIndent indent ++ "local " ++ n ++ " = " ++ tempVar ++ "." ++ n ++ "\n")),
         classes)

/-- The statement fold of function/if/while/for/do/class bodies. -/
def generateStatements : Nat → PairOrd → Nat → List String → List Statement →
    String × List String
  | 0, _, _, classes, _ => ("", classes)
  | _ + 1, _, _, classes, [] => ("", classes)
  | fuel + 1, ord, indent, classes, s :: rest =>
    let (sS, classes) := generateStatement fuel ord indent classes s
    let (restS, classes) := generateStatements fuel ord indent classes rest
    (sS ++ restS, classes)

/-- The method loop of `generateClassDeclaration` (colon-form methods,
each followed by a blank line). -/
def generateClassMethods : Nat → PairOrd → Nat → List String → String →
    List FuncDecl → String × List String
  | 0, _, _, classes, _, _ => ("", classes)
  | _ + 1, _, _, classes, _, [] => ("", classes)
  | fuel + 1, ord, indent, classes, className, .mk _ mname _ mparams _ mbody _ _ _ :: rest =>
    let (bodyS, classes) :=
      match mbody with
      | some b => generateStatements fuel ord (indent + 1) classes b
      | none => ("", classes)
    let s := generateIndent indent ++ "function " ++ className ++ ":" ++ mname ++ "(" ++
      paramNames mparams ++ ")\n" ++ bodyS ++ generateIndent indent ++ "end\n\n"
    let (restS, classes) := generateClassMethods fuel ord indent classes className rest
    (s ++ restS, classes)

end

/-- `Generator.getExpressionToken`. -/
def getExpressionToken : Expr → Tok
  | .ident tok _ => tok
  | .numberLit tok _ => tok
  | .stringLit tok _ => tok
  | .booleanLit tok _ => tok
  | .call _ f _ => getExpressionToken f
  | .infixExpr _ _ left _ => getExpressionToken left
  | .prefixExpr tok _ _ => tok
  | .dot _ left _ => getExpressionToken left
  | .indexExpr _ left _ => getExpressionToken left
  | _ => Tok.zero

/-- `Generator.trackStatementMapping`: the statement kinds with a tracked
token; the rest (interface, type, block, declare) record nothing. -/
def statementMappingToken : Statement → Option Tok
  | .varDecl tok _ _ _ _ => some tok
  | .funcDecl f => some f.tok
  | .exprStmt _ e =>
    match e with
    | some ex => some (getExpressionToken ex)
    | none => some Tok.zero
  | .ret tok _ => some tok
  | .ifS tok _ _ _ => some tok
  | .whileS tok _ _ => some tok
  | .forS tok _ _ _ _ _ _ _ => some tok
  | .doS tok _ => some tok
  | .breakS tok => some tok
  | .assign _ nameE _ => some (getExpressionToken nameE)
  | .classDecl tok _ _ _ _ _ _ _ _ => some tok
  | .enumDecl tok _ _ => some tok
  | .exportS tok _ => some tok
  | .importS tok _ _ _ => some tok
  | _ => none

/-- The state of `codegen.Generator` relevant to `Generate`: position
cursor and optional builder (plus the statement-level `indent`/`classes`
threaded separately into `generateStatement`, which never touches these
fields). -/
structure GenTop where
  builder? : Option Builder
  currentLine : Nat
  currentColumn : Nat
deriving Repr

/-- `Generator.write`: advance the generated-position cursor (a no-op
without a source-map builder). -/
def write (g : GenTop) (text : String) : GenTop :=
  match g.builder? with
  | none => g
  | some _ =>
    text.data.foldl
      (fun g ch =>
        if ch = '\n' then { g with currentLine := g.currentLine + 1, currentColumn := 0 }
        else { g with currentColumn := g.currentColumn + 1 }) g

/-- `Generator.trackMapping` (via `trackStatementMapping`). -/
def trackMapping (g : GenTop) (tok : Tok) : GenTop :=
  match g.builder? with
  | none => g
  | some b =>
    { g with builder? := some (b.AddMapping g.currentLine g.currentColumn tok.line
        ((tok.column : Int) - 1) "") }

/-- The statement loop of `Generator.Generate`: track a mapping at each
statement start (when a builder is attached), emit the statement, and
separate non-empty top-level emissions with a blank line except after the
last statement. -/
def generateLoop (fuel : Nat) (ord : PairOrd) (g : GenTop) (classes : List String)
    (i : Nat) (total : Nat) : List Statement → String × GenTop × List String
  | [] => ("", g, classes)
  | stmt :: rest =>
    let g :=
      match g.builder? with
      | some _ =>
        match statementMappingToken stmt with
        | some tok => trackMapping g tok
        | none => g
      | none => g
    let (code, classes) := generateStatement fuel ord 0 classes stmt
    let (out, g) :=
      if code ≠ "" then
        let g := write g code
        if i < total - 1 then (code ++ "\n", write g "\n")
        else (code, g)
      else ("", g)
    let (restOut, g, classes) := generateLoop fuel ord g classes (i + 1) total rest
    (out ++ restOut, g, classes)

/-- `Generator.Generate` seeded by `codegen.New` (no source map). -/
def Generate (fuel : Nat) (ord : PairOrd) (statements : List Statement) : String :=
  (generateLoop fuel ord ⟨none, 0, 0⟩ [] 0 statements.length statements).1

/-- `Generator.Generate` seeded by `codegen.NewWithSourceMap`. -/
def GenerateWithSourceMap (fuel : Nat) (ord : PairOrd)
    (sourceFile generatedFile : String) (statements : List Statement) :
    String × Option Builder :=
  let r := generateLoop fuel ord ⟨some (NewBuilder sourceFile generatedFile), 1, 0⟩ []
    0 statements.length statements
  (r.1, r.2.1.builder?)

end Lunar.Gen

namespace Lunar.Types

/-- Is this type a union node?  (Used to state union flatness.) -/
def tyIsUnion : Ty → Bool
  | .union _ => true
  | _ => false

mutual

/-- Hereditary union flatness: every `union` node reachable inside the type
has members that are not themselves unions.  (A generic alias's unresolved
body is syntax, not a constructed type, so it is not descended into —
exactly the distinction the checker makes.) -/
def tyFlat : Ty → Bool
  | .number | .stringT | .boolean | .nilT | .void | .any => true
  | .stringLit _ | .numberLit _ => true
  | .array e => tyFlat e
  | .table k v => tyFlat k && tyFlat v
  | .func ps r => tyFlatList ps && tyFlat r
  | .union ts => tyFlatMembers ts
  | .optionalTy b => tyFlat b
  | .tuple es => tyFlatList es
  | .classTy _ props ms impls ctor _ =>
    tyFlatProps props && tyFlatMethods ms && tyFlatList impls && tyFlatCtor ctor
  | .interfaceTy _ props ms exts =>
    tyFlatProps props && tyFlatMethods ms && tyFlatList exts
  | .enumTy _ _ => true
  | .genericAlias _ _ _ => true

def tyFlatList : List Ty → Bool
  | [] => true
  | t :: ts => tyFlat t && tyFlatList ts

/-- Union members: flat, and not union nodes themselves. -/
def tyFlatMembers : List Ty → Bool
  | [] => true
  | t :: ts => !tyIsUnion t && tyFlat t && tyFlatMembers ts

def tyFlatProps : List (String × Ty) → Bool
  | [] => true
  | (_, t) :: ps => tyFlat t && tyFlatProps ps

def tyFlatMethods : List (String × (List Ty × Ty)) → Bool
  | [] => true
  | (_, (ps, r)) :: ms => tyFlatList ps && tyFlat r && tyFlatMethods ms

def tyFlatCtor : Option (List Ty × Ty) → Bool
  | none => true
  | some (ps, r) => tyFlatList ps && tyFlat r

end

/-- The `Implements` slice of a class type (`[]` on every other shape);
used to compare registry contents across registration runs. -/
def tyImplements : Ty → List Ty
  | .classTy _ _ _ impls _ _ => impls
  | _ => []

end Lunar.Types

namespace Lunar.Check
open Lunar.Types

/-- All types in one scope's store are hereditarily flat. -/
def storeFlat (s : List (String × Ty)) : Bool :=
  s.all (fun p => tyFlat p.2)

/-- All types in the environment chain are hereditarily flat. -/
def envFlat (e : Env) : Bool :=
  e.all (fun f => storeFlat f.store)

/-- Every type the checker state stores (environment and the five
registries) is hereditarily flat. -/
def checkerFlat (c : Checker) : Bool :=
  envFlat c.env && storeFlat c.classes && storeFlat c.interfaces &&
  storeFlat c.enums && storeFlat c.typeAliases && storeFlat c.genericTypeAliases

/-- Which registry a pass-1 registration writes. -/
inductive RegKind where
  | cls | intf | enm | alias | galias
deriving DecidableEq, Repr

/-- A *clause-free* registration: a statement whose pass-1 effect is a
single registry-plus-environment insertion of a value built from the
statement alone (no property/method annotations to resolve, no
implements/extends clause, no generic class scope, no enum member value
expressions, no alias body).  For such statements the inserted type does
not depend on the checker state.  `none` marks the statement kinds pass 1
ignores. -/
def simpleRegUpd : Statement → Option (Option (RegKind × String × Ty))
  | .classDecl _ name gps _ props methods _ impls _ =>
    match gps, props, methods, impls with
    | [], [], [], [] => some (some (.cls, name, .classTy name [] [] [] none false))
    | _, _, _, _ => none
  | .interfaceDecl _ name ms props exts =>
    match ms, props, exts with
    | [], [], [] => some (some (.intf, name, .interfaceTy name [] [] []))
    | _, _, _ => none
  | .enumDecl _ name members =>
    if members.all (fun m => m.value?.isNone) then
      some (some (.enm, name, .enumTy name (members.map (·.name))))
    else none
  | .typeDecl _ name gps t? props =>
    if gps ≠ [] then some (some (.galias, name, .genericAlias name gps t?))
    else match t?, props with
      | none, [] => some (some (.alias, name, .any))
      | _, _ => none
  | .declareS _ _ => none
  | .exportS _ _ => some none
  | .importS _ _ _ _ => some none
  | .varDecl _ _ _ _ _ => some none
  | .funcDecl _ => some none
  | .exprStmt _ _ => some none
  | .ret _ _ => some none
  | .ifS _ _ _ _ => some none
  | .whileS _ _ _ => some none
  | .forS _ _ _ _ _ _ _ _ => some none
  | .doS _ _ => some none
  | .breakS _ => some none
  | .blockS _ _ => some none
  | .assign _ _ _ => some none

/-- A statement is clause-free-registering (or not registering at all). -/
def simpleReg (s : Statement) : Bool :=
  (simpleRegUpd s).isSome

/-- The checker update a clause-free registration performs (registry entry
plus the matching `env.Set`). -/
def applyUpd : Option (RegKind × String × Ty) → Checker → Checker
  | none, c => c
  | some (.cls, n, v), c =>
    { c with classes := insertAssoc c.classes n v, env := envSet c.env n v }
  | some (.intf, n, v), c =>
    { c with interfaces := insertAssoc c.interfaces n v, env := envSet c.env n v }
  | some (.enm, n, v), c =>
    { c with enums := insertAssoc c.enums n v, env := envSet c.env n v }
  | some (.alias, n, v), c =>
    { c with typeAliases := insertAssoc c.typeAliases n v, env := envSet c.env n v }
  | some (.galias, n, v), c =>
    { c with genericTypeAliases := insertAssoc c.genericTypeAliases n v,
             env := envSet c.env n v }

/-- The (name, type) pairs a clause-free statement list inserts into the
registry of kind `k`, in statement order. -/
def updsOf (k : RegKind) : List Statement → List (String × Ty)
  | [] => []
  | s :: rest =>
    (match simpleRegUpd s with
     | some (some (k2, n, v)) => if k2 = k then [(n, v)] else []
     | _ => []) ++ updsOf k rest

/-- Fold a list of insertions into a registry. -/
def applyInserts (l : List (String × Ty)) (r : List (String × Ty)) :
    List (String × Ty) :=
  l.foldl (fun r p => insertAssoc r p.1 p.2) r

end Lunar.Check

namespace Lunar.Gen
open Lunar

mutual

/-- Every table literal inside the expression has at most one key-value
pair (so Go's unspecified map enumeration order has at most one possible
order). -/
def exprAtMostOnePair : Expr → Bool
  | .ident _ _ | .numberLit _ _ | .stringLit _ _ | .booleanLit _ _ | .nilLit _ => true
  | .tableLit _ values pairs =>
    decide (pairs.length ≤ 1) && exprsAtMostOnePair values && pairListAtMostOnePair pairs
  | .prefixExpr _ _ r => exprAtMostOnePair r
  | .infixExpr _ _ l r => exprAtMostOnePair l && exprAtMostOnePair r
  | .call _ f args => exprAtMostOnePair f && exprsAtMostOnePair args
  | .dot _ l r => exprAtMostOnePair l && exprAtMostOnePair r
  | .indexExpr _ l i => exprAtMostOnePair l && exprAtMostOnePair i
termination_by e => (sizeOf e, 0)

/-- `exprAtMostOnePair` over an expression list. -/
def exprsAtMostOnePair : List Expr → Bool
  | [] => true
  | e :: es => exprAtMostOnePair e && exprsAtMostOnePair es
termination_by es => (sizeOf es, 1)

/-- `exprAtMostOnePair` over both components of each table pair. -/
def pairListAtMostOnePair : List (Expr × Expr) → Bool
  | [] => true
  | (k, v) :: ps => exprAtMostOnePair k && exprAtMostOnePair v && pairListAtMostOnePair ps
termination_by ps => (sizeOf ps, 1)

end

/-- `exprAtMostOnePair` through an optional expression. -/
def optExprAtMostOnePair : Option Expr → Bool
  | none => true
  | some e => exprAtMostOnePair e

mutual

/-- Every table literal inside the statement (bodies included) has at most
one key-value pair. -/
def stmtAtMostOnePair : Statement → Bool
  | .varDecl _ _ _ _ value? => optExprAtMostOnePair value?
  | .funcDecl (.mk _ _ _ _ _ body _ _ _) => optBlockAtMostOnePair body
  | .exprStmt _ e => optExprAtMostOnePair e
  | .ret _ value? => optExprAtMostOnePair value?
  | .ifS _ cond cons alt =>
    exprAtMostOnePair cond && optBlockAtMostOnePair cons && optBlockAtMostOnePair alt
  | .whileS _ cond body => exprAtMostOnePair cond && optBlockAtMostOnePair body
  | .forS _ _ start? endE step? iterator? _ body =>
    optExprAtMostOnePair start? && optExprAtMostOnePair endE &&
    optExprAtMostOnePair step? && optExprAtMostOnePair iterator? &&
    optBlockAtMostOnePair body
  | .doS _ body => optBlockAtMostOnePair body
  | .breakS _ => true
  | .blockS _ stmts => stmtsAtMostOnePair stmts
  | .assign _ nameE valueE => exprAtMostOnePair nameE && exprAtMostOnePair valueE
  | .classDecl _ _ _ _ _ methods ctor? _ _ =>
    methodsAtMostOnePair methods &&
    (match ctor? with
     | none => true
     | some (.mk _ _ cbody) => optBlockAtMostOnePair cbody)
  | .interfaceDecl _ _ _ _ _ => true
  | .enumDecl _ _ members => members.all (fun m => optExprAtMostOnePair m.value?)
  | .typeDecl _ _ _ _ _ => true
  | .declareS _ _ => true
  | .exportS _ stmt? =>
    match stmt? with
    | some s => stmtAtMostOnePair s
    | none => true
  | .importS _ _ _ _ => true
termination_by s => sizeOf s

def stmtsAtMostOnePair : List Statement → Bool
  | [] => true
  | s :: rest => stmtAtMostOnePair s && stmtsAtMostOnePair rest
termination_by l => sizeOf l

def optBlockAtMostOnePair : Option (List Statement) → Bool
  | none => true
  | some stmts => stmtsAtMostOnePair stmts
termination_by b => sizeOf b

def methodsAtMostOnePair : List FuncDecl → Bool
  | [] => true
  | .mk _ _ _ _ _ mbody _ _ _ :: rest =>
    optBlockAtMostOnePair mbody && methodsAtMostOnePair rest
termination_by ms => sizeOf ms

end

/-- The enum-emission shape in the words of the spec ("Enums emit a single
table whose fields equal the members' explicit values, or the member's
0-based index if no value was given, preserving declaration order");
`render` stands for the expression rendering the spec leaves to §4.6.
Stated from the spec, to be compared with the transcription of
`generateEnumDeclaration` (claim C8). -/
def specEnumTable (render : Expr → String) (indent : Nat) (name : String)
    (members : List EnumMember) : String :=
  generateIndent indent ++ "local " ++ name ++ " = \x7b\n" ++
  String.join (members.enum.map (fun p =>
    generateIndent (indent + 1) ++ p.2.name ++ " = " ++
      (match p.2.value? with
       | some v => render v
       | none => toString p.1) ++ ",\n")) ++
  generateIndent indent ++ "\x7d\n"

end Lunar.Gen

namespace Lunar.Examples
open Lunar

/-- A token at position (`ln`, `col`) — the concrete inputs below give each
node a distinct position so diagnostics can be told apart. -/
def tk (lit : String) (ln col : Nat) : Tok := ⟨lit, ln, col⟩

/-- Scenario S2 of the spec:
`class Point … constructor(x: number, y: number) … end` followed by
`local p: Point = Point(3, 4)`. -/
def pointClass : Statement :=
  .classDecl (tk "class" 1 1) "Point" [] none [] []
    (some (.mk (tk "constructor" 2 3)
      [⟨tk "x" 2 15, "x", some (.ident (tk "number" 2 18) "number")⟩,
       ⟨tk "y" 2 26, "y", some (.ident (tk "number" 2 29) "number")⟩]
      (some []))) [] false

def s2Program : List Statement :=
  [pointClass,
   .varDecl (tk "local" 5 1) false "p" (some (.ident (tk "Point" 5 10) "Point"))
     (some (.call (tk "(" 5 23)
       (.ident (tk "Point" 5 18) "Point")
       [.numberLit (tk "3" 5 24) 3, .numberLit (tk "4" 5 27) 4]))]

/-- The token stream of the type annotation `table<string, number>[]`
(claim C5). -/
def c5Tokens : List Parse.PTok :=
  [⟨.tableK, "table", 1, 1, 0⟩, ⟨.ltT, "<", 1, 6, 0⟩,
   ⟨.stringTypeK, "string", 1, 7, 0⟩, ⟨.comma, ",", 1, 13, 0⟩,
   ⟨.numberTypeK, "number", 1, 15, 0⟩, ⟨.gtT, ">", 1, 21, 0⟩,
   ⟨.lbracket, "[", 1, 22, 0⟩, ⟨.rbracket, "]", 1, 23, 0⟩]

/-- The annotation `nil | nil` (claim C10's counterexample). -/
def nilUnionTE : TypeExpr :=
  .unionT (tk "|" 1 14) [some (.ident (tk "nil" 1 10) "nil"),
    some (.ident (tk "nil" 1 16) "nil")]

/-- `local u: nil|nil = nil` then `local x` then `x = u`: the value's
declared type is the two-member union `nil|nil`, which is neither `nil`
nor `any`, yet the assignment type-checks. -/
def c10Program : List Statement :=
  [.varDecl (tk "local" 1 1) false "u" (some nilUnionTE)
     (some (.nilLit (tk "nil" 1 20))),
   .varDecl (tk "local" 2 1) false "x" none none,
   .assign (tk "x" 3 1) (.ident (tk "x" 3 1) "x") (.ident (tk "u" 3 5) "u")]

/-- `class C implements I` before `interface I` (claim C4's
counterexample: the implements clause is resolved against the interfaces
registry before `I` is registered, so run 1 records no interface and run 2
records one). -/
def c4Program : List Statement :=
  [.classDecl (tk "class" 1 1) "C" [] none [] [] none
     [.ident (tk "I" 1 20) "I"] false,
   .interfaceDecl (tk "interface" 4 1) "I" [] [] []]

/-- A clause-free registration list (claim C4's witness input). -/
def c4SimpleProgram : List Statement :=
  [.classDecl (tk "class" 1 1) "C" [] none [] [] none [] false,
   .enumDecl (tk "enum" 2 1) "E"
     [⟨tk "A" 2 10, "A", none⟩, ⟨tk "B" 2 13, "B", none⟩],
   .interfaceDecl (tk "interface" 3 1) "I" [] [] []]

/-- A table literal with two key-value pairs (claim C1's counterexample:
two enumeration orders of the pairs map yield different output). -/
def c1Program : List Statement :=
  [.exprStmt (tk "\x7b" 1 1) (some (.tableLit (tk "\x7b" 1 1) []
    [(.ident (tk "a" 1 2) "a", .numberLit (tk "1" 1 6) 1),
     (.ident (tk "b" 1 9) "b", .numberLit (tk "2" 1 13) 2)]))]

/-- A program whose only table literal has a single pair (claim C1's
witness input). -/
def c1OnePairProgram : List Statement :=
  [.exprStmt (tk "\x7b" 1 1) (some (.tableLit (tk "\x7b" 1 1)
    [.numberLit (tk "7" 1 2) 7]
    [(.ident (tk "a" 1 5) "a", .numberLit (tk "1" 1 9) 1)]))]

/-- `local x: number?` — an optional-type annotation reaching the checker
(claim C3). -/
def c3Program : List Statement :=
  [.varDecl (tk "local" 1 1) false "x"
     (some (.optionalT (tk "?" 1 16) (some (.ident (tk "number" 1 10) "number"))))
     none]

end Lunar.Examples

/-! ## Theorems: VLQ encoding (claim C7) -/

namespace Lunar.SourceMap

theorem vlqBaseShift_eq : vlqBaseShift = 5 := rfl

theorem vlqBaseMask_eq : vlqBaseMask = 31 := rfl

theorem vlqContinuationBit_eq : vlqContinuationBit = 32 := rfl

theorem charDigit_base64Char : ∀ d < 64, charDigit (base64Char d) = d := by decide

theorem or32_and31 : ∀ x < 32, (x ||| 32) &&& 31 = x := by decide

theorem or32_and32 : ∀ x < 32, (x ||| 32) &&& 32 ≠ 0 := by decide

theorem and32_eq_zero : ∀ x < 32, x &&& 32 = 0 := by decide

theorem or32_lt64 : ∀ x < 32, (x ||| 32) < 64 := by decide

theorem base64Char_mem : ∀ d < 64, base64Char d ∈ base64Chars := by decide

theorem base64Chars_length : base64Chars.length = 64 := by decide

theorem and_mask_eq_mod (n : Nat) : n &&& vlqBaseMask = n % 32 := by
  have h := Nat.and_pow_two_sub_one_eq_mod n 5
  norm_num at h
  simpa [vlqBaseMask_eq] using h

theorem shiftr5 (n : Nat) : n >>> vlqBaseShift = n / 32 := by
  have h := Nat.shiftRight_eq_div_pow n 5
  norm_num at h
  simpa [vlqBaseShift_eq] using h

theorem two_mul_or_one (x : Nat) : (2 * x) ||| 1 = 2 * x + 1 := by
  have h : (2 * x) ||| 1 = Nat.bit false x ||| Nat.bit true 0 := by
    simp [Nat.bit]
  rw [h, Nat.lor_bit]
  simp [Nat.bit]

theorem encodeLoop_eq (vlq : Nat) :
    encodeLoop vlq =
      if vlq >>> vlqBaseShift > 0 then
        base64Char ((vlq &&& vlqBaseMask) ||| vlqContinuationBit) ::
          encodeLoop (vlq >>> vlqBaseShift)
      else [base64Char (vlq &&& vlqBaseMask)] := by
  rw [encodeLoop]

theorem and31_self : ∀ x < 32, x &&& 31 = x := by decide

theorem decodeLoop_encodeLoop (vlq : Nat) :
    ∀ shift, decodeLoop (encodeLoop vlq) shift =
      (vlq <<< shift, (encodeLoop vlq).length) := by
  induction vlq using Nat.strong_induction_on with
  | _ vlq ih =>
    intro shift
    rw [encodeLoop_eq]
    have hm : vlq &&& vlqBaseMask = vlq % 32 := and_mask_eq_mod vlq
    have hmlt : vlq % 32 < 32 := by omega
    have hrest : vlq >>> vlqBaseShift = vlq / 32 := shiftr5 vlq
    by_cases h : vlq >>> vlqBaseShift > 0
    · rw [if_pos h]
      rw [hrest] at h
      simp only [vlqBaseMask_eq, vlqContinuationBit_eq, vlqBaseShift_eq] at hm hrest ⊢
      rw [hm, hrest]
      have hdig : charDigit (base64Char ((vlq % 32) ||| 32)) = (vlq % 32) ||| 32 :=
        charDigit_base64Char _ (or32_lt64 _ hmlt)
      simp only [decodeLoop, hdig, vlqContinuationBit_eq, vlqBaseMask_eq, vlqBaseShift_eq]
      rw [if_pos (or32_and32 _ hmlt)]
      rw [ih (vlq / 32) (by omega) (shift + 5)]
      rw [or32_and31 _ hmlt]
      simp only [List.length_cons]
      refine Prod.ext ?_ rfl
      show (vlq % 32) <<< shift + (vlq / 32) <<< (shift + 5) = vlq <<< shift
      rw [Nat.shiftLeft_eq, Nat.shiftLeft_eq, Nat.shiftLeft_eq]
      have hv : vlq = vlq % 32 + 32 * (vlq / 32) := by omega
      rw [pow_add]
      conv_rhs => rw [hv]
      ring
    · rw [if_neg h]
      rw [hrest] at h
      have hvlt : vlq < 32 := by omega
      simp only [vlqBaseMask_eq] at hm ⊢
      rw [hm]
      have hdig : charDigit (base64Char (vlq % 32)) = vlq % 32 :=
        charDigit_base64Char _ (by omega)
      simp only [decodeLoop, hdig, vlqContinuationBit_eq, vlqBaseMask_eq]
      rw [if_neg (by simpa using and32_eq_zero _ hmlt)]
      rw [and31_self _ hmlt]
      have : vlq % 32 = vlq := by omega
      rw [this]
      rfl

theorem encodeLoop_mem_alphabet (vlq : Nat) :
    ∀ c ∈ encodeLoop vlq, c ∈ base64Chars := by
  induction vlq using Nat.strong_induction_on with
  | _ vlq ih =>
    rw [encodeLoop_eq]
    have hm : vlq &&& vlqBaseMask = vlq % 32 := and_mask_eq_mod vlq
    have hrest : vlq >>> vlqBaseShift = vlq / 32 := shiftr5 vlq
    by_cases h : vlq >>> vlqBaseShift > 0
    · rw [if_pos h]
      intro c hc
      rcases List.mem_cons.mp hc with hc | hc
      · subst hc
        rw [hm, vlqContinuationBit_eq]
        exact base64Char_mem _ (or32_lt64 _ (by omega))
      · exact ih (vlq >>> vlqBaseShift) (by rw [hrest] at h ⊢; omega) c hc
    · rw [if_neg h]
      intro c hc
      rw [List.mem_singleton] at hc
      subst hc
      rw [hm]
      exact base64Char_mem _ (by omega)

theorem DecodeVLQ_EncodeVLQ (v : Int) :
    DecodeVLQ (EncodeVLQ v) = (v, (EncodeVLQ v).length) := by
  simp only [EncodeVLQ, DecodeVLQ]
  by_cases hv : v < 0
  · simp only [if_pos hv]
    have h1 : (v.natAbs <<< 1) ||| 1 = 2 * v.natAbs + 1 := by
      rw [Nat.shiftLeft_eq, pow_one, mul_comm]
      exact two_mul_or_one v.natAbs
    rw [h1, decodeLoop_encodeLoop]
    have hodd : (2 * v.natAbs + 1) % 2 = 1 := by omega
    simp only [Nat.shiftLeft_zero, hodd, if_pos]
    have hs : (2 * v.natAbs + 1) >>> 1 = v.natAbs := by
      rw [Nat.shiftRight_one]
      omega
    rw [hs]
    refine Prod.ext ?_ rfl
    show -(Int.ofNat v.natAbs) = v
    simp only [Int.ofNat_eq_natCast]
    omega
  · simp only [if_neg hv]
    have h1 : v.natAbs <<< 1 = 2 * v.natAbs := by
      rw [Nat.shiftLeft_eq, pow_one, mul_comm]
    rw [h1, decodeLoop_encodeLoop]
    have heven : ¬((2 * v.natAbs) % 2 = 1) := by omega
    simp only [Nat.shiftLeft_zero, heven, if_neg, if_false]
    have hs : (2 * v.natAbs) >>> 1 = v.natAbs := by
      rw [Nat.shiftRight_one]
      omega
    rw [hs]
    refine Prod.ext ?_ rfl
    show Int.ofNat v.natAbs = v
    simp only [Int.ofNat_eq_natCast]
    omega

/-- C7: VLQ round-trip — for every integer `v` (the embedding uses unbounded
integers, matching Go for every value that does not overflow a 64-bit `int`),
`DecodeVLQ (EncodeVLQ v)` returns `v` having consumed the whole string, and
`EncodeVLQ` emits only characters of the 64-character base64 alphabet
`A–Z a–z 0–9 + /`. -/
theorem C7_vlq_roundtrip_and_alphabet :
    (∀ v : Int, DecodeVLQ (EncodeVLQ v) = (v, (EncodeVLQ v).length)) ∧
    (∀ v : Int, ∀ c ∈ EncodeVLQ v, c ∈ base64Chars) ∧
    base64Chars.length = 64 :=
  ⟨DecodeVLQ_EncodeVLQ,
   fun _ c hc => encodeLoop_mem_alphabet _ c hc,
   base64Chars_length⟩

/-- Witness for C7 at the concrete input `v = -137` (encoded as `"zI"`). -/
theorem C7_witness :
    DecodeVLQ (EncodeVLQ (-137)) = (-137, (EncodeVLQ (-137)).length) ∧
    'z' ∈ base64Chars :=
  ⟨C7_vlq_roundtrip_and_alphabet.1 (-137),
   C7_vlq_roundtrip_and_alphabet.2.1 (-137) 'z' (by
    rw [show EncodeVLQ (-137) = encodeLoop 275 from rfl, encodeLoop_eq, encodeLoop_eq]
    decide)⟩

end Lunar.SourceMap


/-! ## Theorems: type resolution and the checker (claims C3, C2, C10, C6) -/

namespace Lunar.Check
open Lunar.Types Lunar.Examples

/-- C3: the spec says an annotation `T?` resolves to `optional(resolve(T))`
with no error; in fact `resolveTypeExpression` has no case for the
optional-type node, so *every* such annotation falls into the default
branch — the checker reports `Cannot resolve type expression:
*ast.OptionalType` (at the zero token) and yields `any`; moreover the
scenario program `local x: number?` surfaces exactly that diagnostic. -/
theorem C3_optional_annotation_unresolved :
    (∀ (fuel : Nat) (c : Checker) (tok : Tok) (t : Option TypeExpr),
      resolveTypeExpression (fuel + 1) c (some (.optionalT tok t)) =
        (.any, addError c "Cannot resolve type expression: *ast.OptionalType" Tok.zero)) ∧
    CheckProgram 100 c3Program =
      [⟨"Cannot resolve type expression: *ast.OptionalType", 0, 0⟩] :=
  ⟨fun _ _ _ _ => rfl, by decide⟩

/-- C2: the scenario-S2 program (`class Point` with a two-parameter
constructor, then `local p: Point = Point(3, 4)`) does *not* type-check:
`checkCallExpression` requires a `*FunctionType` target and has no
class-instantiation path, so the call to the class name is reported as
`Cannot call type 'Point'` (the spec — and the repository's own tests —
expect no error here). -/
theorem C2_class_instantiation_rejected :
    CheckProgram 100 s2Program = [⟨"Cannot call type 'Point'", 5, 23⟩] := by
  decide

/-- C10 (amended): a variable declared with neither annotation nor
initializer is bound to `nil`, and a later assignment to it of a value of
type `T` is reported exactly when `T` is not assignable to `nil` — not
when `T` is merely different from `nil` and `any`: union types all of
whose members are nil-assignable (e.g. `nil|nil`) are accepted too. -/
theorem C10_unannotated_binds_nil (fuel : Nat) (T : Ty) :
    (envGet (checkStatement (fuel + 1)
        { NewChecker with env := envSet NewChecker.env "u" T }
        (.varDecl (tk "local" 2 1) false "x" none none)).env "x" = some .nilT) ∧
    (runCheck (fuel + 4) { NewChecker with env := envSet NewChecker.env "u" T }
        [.varDecl (tk "local" 2 1) false "x" none none,
         .assign (tk "x" 3 1) (.ident (tk "x" 3 1) "x") (.ident (tk "u" 3 5) "u")]).errors =
      (if isAssignableTo (fuel + 1) T .nilT then []
       else [⟨"Cannot assign type '" ++ tyString (fuel + 1) T ++ "' to type '" ++
         tyString (fuel + 1) Ty.nilT ++ "'", 3, 1⟩]) := by
  constructor
  · rfl
  · cases h : isAssignableTo (fuel + 1) T .nilT <;>
      simp [h, runCheck, pass1, registerTypeDefinition, checkStatementList,
        checkStatement, checkVariableDeclaration, checkAssignmentStatement,
        checkAssignmentRest, checkExpression, checkIdentifier,
        NewChecker, envSet, envGet, envIsConst, emptyFrame,
        insertAssoc, lookupAssoc, addError, tk]

/-- C10's counterexample: in `local u: nil|nil = nil; local x; x = u` the
assigned value's declared type is the two-member union `nil|nil` — a type
that is neither `nil` nor `any` — yet the program reports no error. -/
theorem C10_nil_union_counterexample :
    CheckProgram 100 c10Program = [] ∧
    (resolveTypeExpression 100 NewChecker (some nilUnionTE)).1 = .union [.nilT, .nilT] ∧
    Ty.union [.nilT, .nilT] ≠ Ty.nilT ∧ Ty.union [.nilT, .nilT] ≠ Ty.any :=
  ⟨by decide, rfl, by simp, by simp⟩

/-- C6's counterexample: resolving the annotation `number | number` yields
the *two*-member union `number | number` — the members are structurally
equal (by the checker's own `Equals`), so union members are not
de-duplicated (the spec's example expects one member). -/
theorem C6_union_not_deduplicated :
    (resolveTypeExpression 100 NewChecker (some (.unionT Tok.zero
      [some (.ident Tok.zero "number"), some (.ident Tok.zero "number")]))).1 =
      .union [.number, .number] ∧
    tyEquals 1 .number .number = true :=
  ⟨rfl, rfl⟩

end Lunar.Check

/-! ## Theorems: the parser panic (claim C5) -/

namespace Lunar.Parse
open Lunar.Examples

/-- C5: the spec says the parser never throws; in fact the unchecked type
assertion `baseType.(*ast.Identifier)` in `parseTypeSuffix` panics when an
array suffix follows a non-identifier base type — parsing the type
annotation `table<string, number>[]` aborts with a Go interface-conversion
panic instead of recording a diagnostic. -/
theorem C5_table_array_suffix_panics :
    parseType 20 ⟨c5Tokens, 0, []⟩ =
      .error (.goPanic "interface conversion: ast.Expression is not *ast.Identifier") := by
  rfl

end Lunar.Parse

/-! ## Theorems: pass-1 registration idempotency (claim C4) -/

namespace Lunar.Check
open Lunar.Types Lunar.Examples

theorem lookupAssoc_append {α : Type} (a b : List (String × α)) (n : String) :
    lookupAssoc (a ++ b) n =
      (match lookupAssoc a n with
       | some v => some v
       | none => lookupAssoc b n) := by
  induction a with
  | nil => simp [lookupAssoc]
  | cons p rest ih =>
    obtain ⟨k, v⟩ := p
    by_cases h : k = n <;> simp [lookupAssoc, h, ih]

theorem applyInserts_append (l1 l2 r : List (String × Ty)) :
    applyInserts (l1 ++ l2) r = applyInserts l2 (applyInserts l1 r) := by
  simp [applyInserts, List.foldl_append]

theorem lookup_applyInserts (l r : List (String × Ty)) (n : String) :
    lookupAssoc (applyInserts l r) n =
      (match lookupAssoc l.reverse n with
       | some v => some v
       | none => lookupAssoc r n) := by
  induction l generalizing r with
  | nil => simp [applyInserts, lookupAssoc]
  | cons p rest ih =>
    obtain ⟨k, v⟩ := p
    show lookupAssoc (applyInserts rest (insertAssoc r k v)) n = _
    rw [ih, List.reverse_cons, lookupAssoc_append]
    cases h : lookupAssoc rest.reverse n <;> by_cases hk : k = n <;>
      simp [lookupAssoc, insertAssoc, h, hk]

theorem lookup_applyInserts_twice (l r : List (String × Ty)) (n : String) :
    lookupAssoc (applyInserts l (applyInserts l r)) n =
      lookupAssoc (applyInserts l r) n := by
  rw [lookup_applyInserts]
  cases h : lookupAssoc l.reverse n
  · simp
  · rw [lookup_applyInserts]
    simp [h]

theorem registerEnum_fold_id (fuel : Nat) (members : List EnumMember)
    (h : members.all (fun m => m.value?.isNone) = true) (c : Checker) :
    members.foldl (fun c m =>
      match m.value? with
      | some v => (checkExpression fuel c (some v)).2
      | none => c) c = c := by
  induction members generalizing c with
  | nil => rfl
  | cons m rest ih =>
    rw [List.all_cons, Bool.and_eq_true] at h
    obtain ⟨h1, h2⟩ := h
    rw [List.foldl_cons, Option.isNone_iff_eq_none.mp h1]
    exact ih h2 c

theorem registerTypeDefinition_simple (fuel : Nat) (c : Checker) (s : Statement)
    (u : Option (RegKind × String × Ty)) (h : simpleRegUpd s = some u) :
    registerTypeDefinition fuel c s = applyUpd u c := by
  cases s with
  | classDecl tok name gps ext props methods ctor impls isAbs =>
    cases gps with
    | cons g gs => simp [simpleRegUpd] at h
    | nil =>
      cases props with
      | cons p ps => simp [simpleRegUpd] at h
      | nil =>
        cases methods with
        | cons m ms => simp [simpleRegUpd] at h
        | nil =>
          cases impls with
          | cons i is => simp [simpleRegUpd] at h
          | nil =>
            simp [simpleRegUpd] at h
            subst h
            rfl
  | interfaceDecl tok name ms props exts =>
    cases ms with
    | cons m mss => simp [simpleRegUpd] at h
    | nil =>
      cases props with
      | cons p ps => simp [simpleRegUpd] at h
      | nil =>
        cases exts with
        | cons e es => simp [simpleRegUpd] at h
        | nil =>
          simp [simpleRegUpd] at h
          subst h
          rfl
  | enumDecl tok name members =>
    by_cases hv : members.all (fun m => m.value?.isNone) = true
    · simp [simpleRegUpd, hv] at h
      subst h
      show registerEnum fuel c name members = _
      unfold registerEnum
      rw [registerEnum_fold_id fuel members hv]
      rfl
    · simp [simpleRegUpd, hv] at h
  | typeDecl tok name gps t? props =>
    cases gps with
    | cons g gs =>
      simp [simpleRegUpd] at h
      subst h
      rfl
    | nil =>
      cases t? with
      | some t => simp [simpleRegUpd] at h
      | none =>
        cases props with
        | cons p ps => simp [simpleRegUpd] at h
        | nil =>
          simp [simpleRegUpd] at h
          subst h
          rfl
  | declareS tok d => simp [simpleRegUpd] at h
  | varDecl tok ic n t v => simp [simpleRegUpd] at h; subst h; rfl
  | funcDecl f => simp [simpleRegUpd] at h; subst h; rfl
  | exprStmt tok e => simp [simpleRegUpd] at h; subst h; rfl
  | ret tok v => simp [simpleRegUpd] at h; subst h; rfl
  | ifS tok c2 co a => simp [simpleRegUpd] at h; subst h; rfl
  | whileS tok c2 b => simp [simpleRegUpd] at h; subst h; rfl
  | forS tok v s2 e2 st it ig b => simp [simpleRegUpd] at h; subst h; rfl
  | doS tok b => simp [simpleRegUpd] at h; subst h; rfl
  | breakS tok => simp [simpleRegUpd] at h; subst h; rfl
  | blockS tok ss => simp [simpleRegUpd] at h; subst h; rfl
  | assign tok n v => simp [simpleRegUpd] at h; subst h; rfl
  | exportS tok s2 => simp [simpleRegUpd] at h; subst h; rfl
  | importS tok ns m w => simp [simpleRegUpd] at h; subst h; rfl

theorem pass1_simple_registries (fuel : Nat) (stmts : List Statement) :
    stmts.all simpleReg = true → ∀ (c : Checker),
      (pass1 fuel c stmts).classes = applyInserts (updsOf .cls stmts) c.classes ∧
      (pass1 fuel c stmts).interfaces = applyInserts (updsOf .intf stmts) c.interfaces ∧
      (pass1 fuel c stmts).enums = applyInserts (updsOf .enm stmts) c.enums ∧
      (pass1 fuel c stmts).typeAliases =
        applyInserts (updsOf .alias stmts) c.typeAliases ∧
      (pass1 fuel c stmts).genericTypeAliases =
        applyInserts (updsOf .galias stmts) c.genericTypeAliases ∧
      (pass1 fuel c stmts).errors = c.errors := by
  induction stmts with
  | nil => intro _ c; simp [pass1, updsOf, applyInserts]
  | cons s rest ih =>
    intro hall c
    rw [List.all_cons, Bool.and_eq_true] at hall
    obtain ⟨hs, hrest⟩ := hall
    obtain ⟨u, hu⟩ : ∃ u, simpleRegUpd s = some u := by
      cases h : simpleRegUpd s with
      | none => simp [simpleReg, h] at hs
      | some u => exact ⟨u, rfl⟩
    have hp : pass1 fuel c (s :: rest) = pass1 fuel (applyUpd u c) rest := by
      simp [pass1, List.foldl_cons, registerTypeDefinition_simple fuel c s u hu]
    rw [hp]
    have ihspec := ih hrest (applyUpd u c)
    rcases u with _ | ⟨k, n, v⟩
    · simpa [updsOf, hu, applyUpd] using ihspec
    · cases k <;>
        simpa [updsOf, hu, applyUpd, applyInserts_append, applyInserts,
          insertAssoc] using ihspec

set_option maxHeartbeats 1000000 in
/-- C4 (amended): pass-1 registration is *not* idempotent in general (see
the counterexample: a class implementing a later-declared interface), but
it is for clause-free registrations (`simpleReg`) — statement lists in
which every statement either is one pass 1 ignores, or is a class with no
generic parameters, no properties, no methods and no implements clause, an
interface with no methods, no properties and no extends clause, an enum
with no explicit member values, or a generic type alias (the one
non-generic alias form pass 1 stores state-independently is the bodyless
one, registered as `any`).  Such a statement's inserted (name, type) pair
does not depend on the checker state, so running pass 1 twice yields
registries in which every name looks up to the same type as after one run,
and neither run appends an error. -/
theorem C4_pass1_idempotent_clause_free (fuel : Nat) (stmts : List Statement)
    (h : stmts.all simpleReg = true) (name : String) :
    (lookupAssoc (pass1 fuel (pass1 fuel NewChecker stmts) stmts).classes name =
      lookupAssoc (pass1 fuel NewChecker stmts).classes name) ∧
    (lookupAssoc (pass1 fuel (pass1 fuel NewChecker stmts) stmts).interfaces name =
      lookupAssoc (pass1 fuel NewChecker stmts).interfaces name) ∧
    (lookupAssoc (pass1 fuel (pass1 fuel NewChecker stmts) stmts).enums name =
      lookupAssoc (pass1 fuel NewChecker stmts).enums name) ∧
    (lookupAssoc (pass1 fuel (pass1 fuel NewChecker stmts) stmts).typeAliases name =
      lookupAssoc (pass1 fuel NewChecker stmts).typeAliases name) ∧
    (lookupAssoc (pass1 fuel (pass1 fuel NewChecker stmts) stmts).genericTypeAliases name =
      lookupAssoc (pass1 fuel NewChecker stmts).genericTypeAliases name) ∧
    (pass1 fuel NewChecker stmts).errors = [] ∧
    (pass1 fuel (pass1 fuel NewChecker stmts) stmts).errors = [] := by
  obtain ⟨h1, h2, h3, h4, h5, h6⟩ := pass1_simple_registries fuel stmts h NewChecker
  obtain ⟨g1, g2, g3, g4, g5, g6⟩ :=
    pass1_simple_registries fuel stmts h (pass1 fuel NewChecker stmts)
  refine ⟨?_, ?_, ?_, ?_, ?_, ?_, ?_⟩
  · rw [g1, h1, lookup_applyInserts_twice, ← h1]
  · rw [g2, h2, lookup_applyInserts_twice, ← h2]
  · rw [g3, h3, lookup_applyInserts_twice, ← h3]
  · rw [g4, h4, lookup_applyInserts_twice, ← h4]
  · rw [g5, h5, lookup_applyInserts_twice, ← h5]
  · rw [h6]; rfl
  · rw [g6, h6]; rfl

/-- C4's witness: the clause-free list `class C … enum E { A, B } …
interface I` (c4SimpleProgram) satisfies the hypothesis and the class
registry lookups agree between one and two runs of pass 1. -/
theorem C4_witness :
    lookupAssoc (pass1 10 (pass1 10 NewChecker c4SimpleProgram) c4SimpleProgram).classes
        "C" =
      lookupAssoc (pass1 10 NewChecker c4SimpleProgram).classes "C" :=
  (C4_pass1_idempotent_clause_free 10 c4SimpleProgram (by decide) "C").1

/-- C4's counterexample: in `class C implements I` followed by
`interface I`, run 1 of pass 1 resolves the implements clause against an
empty interfaces registry (recording no interface and the error
`Interface 'I' not found`), while run 2 — starting from the registries
run 1 built — records the interface, so the registered class types
differ. -/
theorem C4_pass1_not_idempotent :
    tyImplements ((lookupAssoc (pass1 10 NewChecker c4Program).classes "C").getD .any) =
      [] ∧
    tyImplements ((lookupAssoc (pass1 10 (pass1 10 NewChecker c4Program)
        c4Program).classes "C").getD .any) = [.interfaceTy "I" [] [] []] ∧
    (pass1 10 NewChecker c4Program).errors = [⟨"Interface 'I' not found", 1, 20⟩] :=
  ⟨rfl, rfl, rfl⟩

end Lunar.Check

/-! ## Theorems: code generation (claims C8, C9, C1) -/

namespace Lunar.Gen
open Lunar Lunar.Examples

theorem string_join_cons (s : String) (l : List String) :
    String.join (s :: l) = s ++ String.join l := by
  have key : ∀ (l : List String) (a : String),
      List.foldl (fun r t => r ++ t) a l = a ++ List.foldl (fun r t => r ++ t) "" l := by
    intro l
    induction l with
    | nil => intro a; simp [String.append_empty]
    | cons x xs ih =>
      intro a
      simp only [List.foldl_cons]
      rw [ih (a ++ x), ih ("" ++ x), String.empty_append, String.append_assoc]
  show List.foldl (fun r t => r ++ t) ("" ++ s) l =
    s ++ List.foldl (fun r t => r ++ t) "" l
  rw [String.empty_append, key l s]

theorem generateEnumMembers_spec (fuel : Nat) (ord : PairOrd) (classes : List String)
    (indent : Nat) (members : List EnumMember) (i : Nat) :
    generateEnumMembers fuel ord classes indent members i =
      String.join ((members.enumFrom i).map (fun p =>
        generateIndent indent ++ p.2.name ++ " = " ++
          (match p.2.value? with
           | some v => generateExpression fuel ord classes (some v)
           | none => toString p.1) ++ ",\n")) := by
  induction members generalizing i with
  | nil => rfl
  | cons m rest ih =>
    simp only [generateEnumMembers, List.enumFrom, List.map_cons, string_join_cons, ih]

/-- C8: for every enum declaration the generator emits exactly the single
table the spec describes — one field per member in declaration order,
equal to the member's explicit value (rendered by the expression
generator) when given and to the member's 0-based index otherwise
(`specEnumTable` is that spec-worded shape). -/
theorem C8_enum_single_table (fuel : Nat) (ord : PairOrd) (indent : Nat)
    (classes : List String) (tok : Tok) (name : String) (members : List EnumMember) :
    generateStatement (fuel + 1) ord indent classes (.enumDecl tok name members) =
      (specEnumTable (fun v => generateExpression fuel ord classes (some v))
        indent name members, classes) := by
  simp [generateStatement, specEnumTable, List.enum, generateEnumMembers_spec]

theorem generateLoop_code_ignores_builder (fuel : Nat) (ord : PairOrd) :
    ∀ (l : List Statement) (classes : List String) (i total : Nat) (g1 g2 : GenTop),
      (generateLoop fuel ord g1 classes i total l).1 =
        (generateLoop fuel ord g2 classes i total l).1 ∧
      (generateLoop fuel ord g1 classes i total l).2.2 =
        (generateLoop fuel ord g2 classes i total l).2.2 := by
  intro l
  induction l with
  | nil => intro classes i total g1 g2; exact ⟨rfl, rfl⟩
  | cons stmt rest ih =>
    intro classes i total g1 g2
    rcases hgen : generateStatement fuel ord 0 classes stmt with ⟨code, classes2⟩
    by_cases hc : code = "" <;> by_cases hi : i < total - 1 <;>
      simp only [generateLoop, hgen, hc, hi, if_true, if_false, ne_eq,
        not_true_eq_false, not_false_eq_true, ite_true, ite_false] <;>
      exact ⟨by rw [(ih classes2 (i + 1) total _ _).1],
             by rw [(ih classes2 (i + 1) total _ _).2]⟩

/-- C9: attaching a source-map builder does not change the generated code —
for every statement list the code string of a generator constructed with
`NewWithSourceMap` equals that of one constructed with `New`; the builder
only accumulates position mappings on the side. -/
theorem C9_sourcemap_leaves_code_unchanged (fuel : Nat) (ord : PairOrd)
    (sourceFile generatedFile : String) (statements : List Statement) :
    (GenerateWithSourceMap fuel ord sourceFile generatedFile statements).1 =
      Generate fuel ord statements := by
  unfold GenerateWithSourceMap Generate
  exact (generateLoop_code_ignores_builder fuel ord statements [] 0
    statements.length _ _).1

/-- C1's counterexample: both the identity and reversal are possible
enumeration orders of a table-literal `Pairs` map (each is a permutation),
yet on a two-pair table literal they produce different generated code, so
two runs of the compiler on the same input need not be byte-identical. -/
theorem C1_pair_order_changes_output :
    (∀ l : List String, ((fun l => l) l).Perm l) ∧
    (∀ l : List String, l.reverse.Perm l) ∧
    Generate 100 (fun l => l) c1Program ≠ Generate 100 (fun l => l.reverse) c1Program :=
  ⟨fun l => List.Perm.refl l, fun l => List.reverse_perm l, by decide⟩

end Lunar.Gen

/-! ## Theorems: union flatness (claim C6) -/

namespace Lunar.Check
open Lunar.Types Lunar.Examples

theorem checkerFlat_addError (c : Checker) (m : String) (tok : Tok) :
    checkerFlat (addError c m tok) = checkerFlat c := rfl

theorem checkerFlat_pushScope (c : Checker) :
    checkerFlat (pushScope c) = checkerFlat c := by
  simp [checkerFlat, pushScope, envFlat, storeFlat, emptyFrame]

theorem envFlat_tail (e : Env) (h : envFlat e = true) : envFlat e.tail = true := by
  cases e with
  | nil => exact h
  | cons f rest =>
    simp only [envFlat, List.all_cons, Bool.and_eq_true] at h
    exact h.2

theorem checkerFlat_popScope (c : Checker) (h : checkerFlat c = true) :
    checkerFlat (popScope c) = true := by
  simp only [checkerFlat, Bool.and_eq_true] at h ⊢
  obtain ⟨⟨⟨⟨⟨h1, h2⟩, h3⟩, h4⟩, h5⟩, h6⟩ := h
  exact ⟨⟨⟨⟨⟨envFlat_tail c.env h1, h2⟩, h3⟩, h4⟩, h5⟩, h6⟩

theorem lookupAssoc_flat (s : List (String × Ty)) (n : String) (t : Ty)
    (hs : storeFlat s = true) (h : lookupAssoc s n = some t) : tyFlat t = true := by
  induction s with
  | nil => simp [lookupAssoc] at h
  | cons p rest ih =>
    obtain ⟨k, v⟩ := p
    simp only [storeFlat, List.all_cons, Bool.and_eq_true] at hs
    by_cases hk : k = n
    · simp only [lookupAssoc, hk, if_true] at h
      injection h with h
      subst h
      exact hs.1
    · simp only [lookupAssoc, hk, if_false] at h
      exact ih hs.2 h

theorem envGet_flat (e : Env) (n : String) (t : Ty)
    (he : envFlat e = true) (h : envGet e n = some t) : tyFlat t = true := by
  induction e with
  | nil => simp [envGet] at h
  | cons f rest ih =>
    simp only [envFlat, List.all_cons, Bool.and_eq_true] at he
    simp only [envGet] at h
    cases hl : lookupAssoc f.store n with
    | some v =>
      rw [hl] at h
      injection h with h
      subst h
      exact lookupAssoc_flat f.store n _ he.1 hl
    | none =>
      rw [hl] at h
      exact ih he.2 h

theorem envSet_flat (e : Env) (n : String) (t : Ty)
    (he : envFlat e = true) (ht : tyFlat t = true) : envFlat (envSet e n t) = true := by
  cases e with
  | nil => simp [envSet, envFlat]
  | cons f rest =>
    simp only [envFlat, envSet, List.all_cons, Bool.and_eq_true] at he ⊢
    refine ⟨?_, he.2⟩
    simp only [storeFlat, insertAssoc, List.all_cons, Bool.and_eq_true]
    exact ⟨ht, he.1⟩

theorem checkerFlat_envSet (c : Checker) (n : String) (t : Ty)
    (hc : checkerFlat c = true) (ht : tyFlat t = true) :
    checkerFlat { c with env := envSet c.env n t } = true := by
  simp only [checkerFlat, Bool.and_eq_true] at hc ⊢
  obtain ⟨⟨⟨⟨⟨h1, h2⟩, h3⟩, h4⟩, h5⟩, h6⟩ := hc
  exact ⟨⟨⟨⟨⟨envSet_flat c.env n t h1 ht, h2⟩, h3⟩, h4⟩, h5⟩, h6⟩

theorem bindFold_flat (l : List (String × Ty)) (c : Checker)
    (hc : checkerFlat c = true) (hl : ∀ p ∈ l, tyFlat p.2 = true) :
    checkerFlat (l.foldl (fun c pt => { c with env := envSet c.env pt.1 pt.2 }) c) =
      true := by
  induction l generalizing c with
  | nil => exact hc
  | cons p rest ih =>
    rw [List.foldl_cons]
    exact ih _ (checkerFlat_envSet c p.1 p.2 hc (hl p (by simp)))
      (fun q hq => hl q (by simp [hq]))

theorem tyFlatList_mem (l : List Ty) (t : Ty) (hl : tyFlatList l = true)
    (ht : t ∈ l) : tyFlat t = true := by
  induction l with
  | nil => cases ht
  | cons x rest ih =>
    simp only [tyFlatList, Bool.and_eq_true] at hl
    rcases List.mem_cons.mp ht with h | h
    · subst h; exact hl.1
    · exact ih hl.2 h

theorem tyFlatMembers_append (a b : List Ty) :
    tyFlatMembers (a ++ b) = (tyFlatMembers a && tyFlatMembers b) := by
  induction a with
  | nil => simp [tyFlatMembers]
  | cons t rest ih => simp [tyFlatMembers, ih, Bool.and_assoc]

set_option maxHeartbeats 1000000 in
/-- C6 (amended): every type `resolveTypeExpression` constructs from a
checker state whose stored types are hereditarily flat is itself
hereditarily flat — union members never contain union nodes, because the
union case splices the members of any union member into the enclosing
list (one level, which under this invariant is enough).  De-duplication,
the other half of the original claim, is refuted by the counterexample:
`number | number` resolves to a two-member union. -/
theorem C6_resolved_unions_flat (fuel : Nat) :
    (∀ c e, checkerFlat c = true →
      tyFlat (resolveTypeExpression fuel c e).1 = true ∧
      checkerFlat (resolveTypeExpression fuel c e).2 = true) ∧
    (∀ c ts, checkerFlat c = true →
      tyFlatMembers (resolveUnionMembers fuel c ts).1 = true ∧
      checkerFlat (resolveUnionMembers fuel c ts).2 = true) ∧
    (∀ c ts, checkerFlat c = true →
      tyFlatList (resolveTypeList fuel c ts).1 = true ∧
      checkerFlat (resolveTypeList fuel c ts).2 = true) ∧
    (∀ c b tps targs, checkerFlat c = true → tyFlatList targs = true →
      tyFlat (substituteTypeParams fuel c b tps targs).1 = true ∧
      checkerFlat (substituteTypeParams fuel c b tps targs).2 = true) := by
  induction fuel with
  | zero =>
    refine ⟨fun c e hc => ?_,
      fun c ts hc => ⟨by simp [resolveUnionMembers, tyFlatMembers], hc⟩,
      fun c ts hc => ⟨by simp [resolveTypeList, tyFlatList], hc⟩,
      fun c b tps targs hc _ => ⟨by simp [substituteTypeParams, tyFlat], hc⟩⟩
    cases e <;> exact ⟨by simp [resolveTypeExpression, tyFlat], hc⟩
  | succ fuel ih =>
    obtain ⟨ihR, ihU, ihL, ihS⟩ := ih
    refine ⟨?_, ?_, ?_, ?_⟩
    · intro c e hc
      match e with
      | none => exact ⟨by simp [resolveTypeExpression, tyFlat], hc⟩
      | some te =>
        cases te with
        | ident tok v =>
          simp only [resolveTypeExpression]
          have hcu := hc
          simp only [checkerFlat, Bool.and_eq_true] at hcu
          obtain ⟨⟨⟨⟨⟨hEnv, hCls⟩, hIntf⟩, hEnum⟩, hAlias⟩, hGa⟩ := hcu
          cases h1 : envGet c.env v with
          | some t => exact ⟨envGet_flat c.env v t hEnv h1, hc⟩
          | none =>
            cases h2 : lookupAssoc c.classes v with
            | some t => simp only [h1, h2]; exact ⟨lookupAssoc_flat _ v t hCls h2, hc⟩
            | none =>
              cases h3 : lookupAssoc c.interfaces v with
              | some t =>
                simp only [h1, h2, h3]
                exact ⟨lookupAssoc_flat _ v t hIntf h3, hc⟩
              | none =>
                cases h4 : lookupAssoc c.enums v with
                | some t =>
                  simp only [h1, h2, h3, h4]
                  exact ⟨lookupAssoc_flat _ v t hEnum h4, hc⟩
                | none =>
                  cases h5 : lookupAssoc c.typeAliases v with
                  | some t =>
                    simp only [h1, h2, h3, h4, h5]
                    exact ⟨lookupAssoc_flat _ v t hAlias h5, hc⟩
                  | none =>
                    simp only [h1, h2, h3, h4, h5]
                    exact ⟨by simp [tyFlat], by rw [checkerFlat_addError]; exact hc⟩
        | arrayT tok elt =>
          simp only [resolveTypeExpression]
          rcases hres : resolveTypeExpression fuel c elt with ⟨t, c1⟩
          obtain ⟨hf, hc1⟩ := ihR c elt hc
          rw [hres] at hf hc1
          exact ⟨by simp [tyFlat, hf], hc1⟩
        | tableT tok k v =>
          simp only [resolveTypeExpression]
          rcases h1 : resolveTypeExpression fuel c k with ⟨kt, c1⟩
          obtain ⟨hk, hc1⟩ := ihR c k hc
          rw [h1] at hk hc1
          rcases h2 : resolveTypeExpression fuel c1 v with ⟨vt, c2⟩
          obtain ⟨hv, hc2⟩ := ihR c1 v hc1
          rw [h2] at hv hc2
          exact ⟨by simp [tyFlat, hk, hv], hc2⟩
        | unionT tok ts =>
          simp only [resolveTypeExpression]
          rcases h1 : resolveUnionMembers fuel c ts with ⟨flat, c1⟩
          obtain ⟨hf, hc1⟩ := ihU c ts hc
          rw [h1] at hf hc1
          exact ⟨by simp [tyFlat, hf], hc1⟩
        | tupleT tok ts =>
          simp only [resolveTypeExpression]
          rcases h1 : resolveTypeList fuel c ts with ⟨es, c1⟩
          obtain ⟨hf, hc1⟩ := ihL c ts hc
          rw [h1] at hf hc1
          exact ⟨by simp [tyFlat, hf], hc1⟩
        | funcT tok ps ret =>
          simp only [resolveTypeExpression]
          rcases h1 : resolveTypeList fuel c ps with ⟨pts, c1⟩
          obtain ⟨hp, hc1⟩ := ihL c ps hc
          rw [h1] at hp hc1
          cases ret with
          | none => exact ⟨by simp [tyFlat, hp], hc1⟩
          | some r =>
            rcases h2 : resolveTypeExpression fuel c1 (some r) with ⟨rt, c2⟩
            obtain ⟨hr, hc2⟩ := ihR c1 (some r) hc1
            rw [h2] at hr hc2
            exact ⟨by simp [h2, tyFlat, hp, hr], by simp only [h2]; exact hc2⟩
        | genericT tok base args =>
          simp only [resolveTypeExpression]
          match base with
          | none => exact ihR c none hc
          | some (.stringLit a b) => exact ihR c _ hc
          | some (.numberLit a b) => exact ihR c _ hc
          | some (.arrayT a b) => exact ihR c _ hc
          | some (.tableT a b d) => exact ihR c _ hc
          | some (.unionT a b) => exact ihR c _ hc
          | some (.tupleT a b) => exact ihR c _ hc
          | some (.funcT a b d) => exact ihR c _ hc
          | some (.genericT a b d) => exact ihR c _ hc
          | some (.optionalT a b) => exact ihR c _ hc
          | some (.ident tk bv) =>
            cases hga : lookupAssoc c.genericTypeAliases bv with
            | none => simp only [hga]; exact ihR c _ hc
            | some g =>
              simp only [hga]
              cases g
              case genericAlias nm tps body =>
                rcases hargs : resolveTypeList fuel c args with ⟨targs, c1⟩
                obtain ⟨hta, hc1⟩ := ihL c args hc
                rw [hargs] at hta hc1
                by_cases hlen : targs.length = tps.length
                · have hsub := ihS c1 body tps targs hc1 hta
                  constructor
                  · simpa [hlen] using hsub.1
                  · simpa [hlen] using hsub.2
                · refine ⟨?_, ?_⟩ <;>
                    simp [hlen, tyFlat, checkerFlat_addError, hc1]
              all_goals exact ihR c _ hc
        | stringLit tok v => exact ⟨by simp [resolveTypeExpression, tyFlat], hc⟩
        | numberLit tok v => exact ⟨by simp [resolveTypeExpression, tyFlat], hc⟩
        | optionalT tok t =>
          exact ⟨by simp [resolveTypeExpression, tyFlat],
            by simp only [resolveTypeExpression]; rw [checkerFlat_addError]; exact hc⟩
    · intro c ts hc
      match ts with
      | [] => exact ⟨by simp [resolveUnionMembers, tyFlatMembers], hc⟩
      | t :: ts' =>
        simp only [resolveUnionMembers]
        rcases h1 : resolveTypeExpression fuel c t with ⟨r, c1⟩
        obtain ⟨hr, hc1⟩ := ihR c t hc
        rw [h1] at hr hc1
        rcases h2 : resolveUnionMembers fuel c1 ts' with ⟨rest, c2⟩
        obtain ⟨hrest, hc2⟩ := ihU c1 ts' hc1
        rw [h2] at hrest hc2
        cases r
        case union us =>
          have hus : tyFlatMembers us = true := by simpa [tyFlat] using hr
          exact ⟨by rw [tyFlatMembers_append]; simp [hus, hrest], hc2⟩
        all_goals exact ⟨by simp [tyFlatMembers, tyIsUnion, hr, hrest], hc2⟩
    · intro c ts hc
      match ts with
      | [] => exact ⟨by simp [resolveTypeList, tyFlatList], hc⟩
      | t :: ts' =>
        simp only [resolveTypeList]
        rcases h1 : resolveTypeExpression fuel c t with ⟨r, c1⟩
        obtain ⟨hr, hc1⟩ := ihR c t hc
        rw [h1] at hr hc1
        rcases h2 : resolveTypeList fuel c1 ts' with ⟨rest, c2⟩
        obtain ⟨hrest, hc2⟩ := ihL c1 ts' hc1
        rw [h2] at hrest hc2
        exact ⟨by simp [tyFlatList, hr, hrest], hc2⟩
    · intro c b tps targs hc hta
      match b with
      | none => exact ⟨by simp [substituteTypeParams, tyFlat], hc⟩
      | some body =>
        simp only [substituteTypeParams]
        have hc1 : checkerFlat (pushScope c) = true := by
          rw [checkerFlat_pushScope]; exact hc
        have hc2 : checkerFlat ((tps.zip targs).foldl
            (fun c pt => { c with env := envSet c.env pt.1 pt.2 }) (pushScope c)) =
            true :=
          bindFold_flat _ _ hc1
            (fun p hp => tyFlatList_mem targs p.2 hta (List.of_mem_zip hp).2)
        obtain ⟨hr, hc3⟩ := ihR ((tps.zip targs).foldl
            (fun c pt => { c with env := envSet c.env pt.1 pt.2 }) (pushScope c))
          (some body) hc2
        exact ⟨hr, checkerFlat_popScope _ hc3⟩

/-- C6's witness: the fresh checker is flat (its six built-ins are
primitive types), so resolving `number | number` from it yields a flat
type and leaves the state flat. -/
theorem C6_flat_witness :
    checkerFlat NewChecker = true ∧
    tyFlat (resolveTypeExpression 100 NewChecker (some (.unionT Tok.zero
      [some (.ident Tok.zero "number"), some (.ident Tok.zero "number")]))).1 = true :=
  have hnc : checkerFlat NewChecker = true := by
    simp [NewChecker, checkerFlat, envFlat, storeFlat, envSet, emptyFrame,
      insertAssoc, tyFlat]
  ⟨hnc, ((C6_resolved_unions_flat 100).1 NewChecker _ hnc).1⟩

end Lunar.Check

/-! ## Theorems: generator determinism (claim C1) -/

namespace Lunar.Gen
open Lunar Lunar.Examples

theorem ord_short_eq (ord : PairOrd) (hord : ∀ l, (ord l).Perm l)
    (l : List String) (h : l.length ≤ 1) : ord l = l := by
  match l with
  | [] => exact (hord []).eq_nil
  | [x] => exact List.perm_singleton.mp (hord [x])

theorem genPairStrings_length_le (ord : PairOrd) (classes : List String) :
    ∀ (fuel : Nat) (ps : List (Expr × Expr)),
      (generatePairStrings fuel ord classes ps).length ≤ ps.length := by
  intro fuel
  induction fuel with
  | zero => intro ps; simp [generatePairStrings]
  | succ fuel ih =>
    intro ps
    cases ps with
    | nil => simp [generatePairStrings]
    | cons p rest =>
      obtain ⟨k, v⟩ := p
      simp only [generatePairStrings, List.length_cons]
      exact Nat.succ_le_succ (ih rest)

theorem genExpr_ord_congr (ord1 ord2 : PairOrd)
    (h1 : ∀ l, (ord1 l).Perm l) (h2 : ∀ l, (ord2 l).Perm l) :
    ∀ fuel : Nat,
      (∀ (classes : List String) (e : Option Expr), optExprAtMostOnePair e = true →
        generateExpression fuel ord1 classes e = generateExpression fuel ord2 classes e) ∧
      (∀ (classes : List String) (es : List Expr), exprsAtMostOnePair es = true →
        generateExpressionList fuel ord1 classes es =
          generateExpressionList fuel ord2 classes es) ∧
      (∀ (classes : List String) (ps : List (Expr × Expr)),
        pairListAtMostOnePair ps = true →
        generatePairStrings fuel ord1 classes ps =
          generatePairStrings fuel ord2 classes ps) := by
  intro fuel
  induction fuel with
  | zero =>
    refine ⟨fun classes e _ => ?_, fun classes es _ => rfl, fun classes ps _ => rfl⟩
    cases e <;> rfl
  | succ fuel ih =>
    obtain ⟨ihE, ihL, ihP⟩ := ih
    refine ⟨?_, ?_, ?_⟩
    · intro classes e he
      match e with
      | none => rfl
      | some ex =>
        cases ex with
        | ident tok v => rfl
        | numberLit tok v => rfl
        | stringLit tok v => rfl
        | booleanLit tok b => rfl
        | nilLit tok => rfl
        | tableLit tok values pairs =>
          simp only [optExprAtMostOnePair, exprAtMostOnePair, Bool.and_eq_true,
            decide_eq_true_eq] at he
          obtain ⟨⟨hlen, hvals⟩, hpairs⟩ := he
          have hlp : (generatePairStrings fuel ord2 classes pairs).length ≤ 1 :=
            le_trans (genPairStrings_length_le ord2 classes fuel pairs) hlen
          simp only [generateExpression, ihL classes values hvals,
            ihP classes pairs hpairs, ord_short_eq ord1 h1 _ hlp,
            ord_short_eq ord2 h2 _ hlp]
        | prefixExpr tok op r =>
          simp only [optExprAtMostOnePair, exprAtMostOnePair] at he
          simp only [generateExpression, ihE classes (some r) he]
        | infixExpr tok op l r =>
          simp only [optExprAtMostOnePair, exprAtMostOnePair, Bool.and_eq_true] at he
          simp only [generateExpression, ihE classes (some l) he.1,
            ihE classes (some r) he.2]
        | call tok f args =>
          simp only [optExprAtMostOnePair, exprAtMostOnePair, Bool.and_eq_true] at he
          simp only [generateExpression, ihE classes (some f) he.1,
            ihL classes args he.2]
        | dot tok l r =>
          simp only [optExprAtMostOnePair, exprAtMostOnePair, Bool.and_eq_true] at he
          simp only [generateExpression, ihE classes (some l) he.1,
            ihE classes (some r) he.2]
        | indexExpr tok l i =>
          simp only [optExprAtMostOnePair, exprAtMostOnePair, Bool.and_eq_true] at he
          simp only [generateExpression, ihE classes (some l) he.1,
            ihE classes (some i) he.2]
    · intro classes es hes
      match es with
      | [] => rfl
      | e :: rest =>
        simp only [exprsAtMostOnePair, Bool.and_eq_true] at hes
        simp only [generateExpressionList, ihE classes (some e) hes.1,
          ihL classes rest hes.2]
    · intro classes ps hps
      match ps with
      | [] => rfl
      | (k, v) :: rest =>
        simp only [pairListAtMostOnePair, Bool.and_eq_true] at hps
        simp only [generatePairStrings, ihE classes (some k) hps.1.1,
          ihE classes (some v) hps.1.2, ihP classes rest hps.2]

theorem genEnumMembers_ord_congr (ord1 ord2 : PairOrd)
    (h1 : ∀ l, (ord1 l).Perm l) (h2 : ∀ l, (ord2 l).Perm l)
    (fuel : Nat) (classes : List String) (indent : Nat) :
    ∀ (members : List EnumMember) (i : Nat),
      members.all (fun m => optExprAtMostOnePair m.value?) = true →
      generateEnumMembers fuel ord1 classes indent members i =
        generateEnumMembers fuel ord2 classes indent members i := by
  intro members
  induction members with
  | nil => intro i _; rfl
  | cons m rest ih =>
    intro i hm
    rw [List.all_cons, Bool.and_eq_true] at hm
    simp only [generateEnumMembers]
    rw [ih (i + 1) hm.2]
    cases hv : m.value? with
    | none => rfl
    | some v =>
      rw [hv] at hm
      have hgE := (genExpr_ord_congr ord1 ord2 h1 h2 fuel).1 classes (some v) hm.1
      simp [hgE]

set_option maxHeartbeats 1000000 in
theorem genStmt_ord_congr (ord1 ord2 : PairOrd)
    (h1 : ∀ l, (ord1 l).Perm l) (h2 : ∀ l, (ord2 l).Perm l) :
    ∀ fuel : Nat,
      (∀ (indent : Nat) (classes : List String) (s : Statement),
        stmtAtMostOnePair s = true →
        generateStatement fuel ord1 indent classes s =
          generateStatement fuel ord2 indent classes s) ∧
      (∀ (indent : Nat) (classes : List String) (l : List Statement),
        stmtsAtMostOnePair l = true →
        generateStatements fuel ord1 indent classes l =
          generateStatements fuel ord2 indent classes l) ∧
      (∀ (indent : Nat) (classes : List String) (cn : String) (ms : List FuncDecl),
        methodsAtMostOnePair ms = true →
        generateClassMethods fuel ord1 indent classes cn ms =
          generateClassMethods fuel ord2 indent classes cn ms) := by
  intro fuel
  induction fuel with
  | zero => exact ⟨fun _ _ _ _ => rfl, fun _ _ _ _ => rfl, fun _ _ _ _ _ => rfl⟩
  | succ fuel ih =>
    obtain ⟨ihS, ihL, ihM⟩ := ih
    obtain ⟨gE, gEL, gPS⟩ := genExpr_ord_congr ord1 ord2 h1 h2 fuel
    refine ⟨?_, ?_, ?_⟩
    · intro indent classes s hs
      cases s with
      | varDecl tok ic name t v =>
        cases v with
        | none => rfl
        | some ve =>
          simp only [stmtAtMostOnePair, optExprAtMostOnePair] at hs
          simp only [generateStatement, gE classes (some ve) hs]
      | funcDecl f =>
        obtain ⟨ftok, fname, fgps, fparams, fret, fbody, fst, fab, fvis⟩ := f
        cases fbody with
        | none => rfl
        | some b =>
          simp only [stmtAtMostOnePair, optBlockAtMostOnePair] at hs
          simp only [generateStatement, ihL (indent + 1) classes b hs]
      | exprStmt tok e =>
        simp only [stmtAtMostOnePair] at hs
        simp only [generateStatement, gE classes e hs]
      | ret tok v =>
        cases v with
        | none => rfl
        | some ve =>
          simp only [stmtAtMostOnePair, optExprAtMostOnePair] at hs
          simp only [generateStatement, gE classes (some ve) hs]
      | ifS tok cond cons alt =>
        simp only [stmtAtMostOnePair, Bool.and_eq_true] at hs
        obtain ⟨⟨hcond, hcons⟩, halt⟩ := hs
        cases cons with
        | none =>
          cases alt with
          | none => simp only [generateStatement, gE classes (some cond) hcond]
          | some a =>
            simp only [optBlockAtMostOnePair] at halt
            simp only [generateStatement, gE classes (some cond) hcond,
              ihL (indent + 1) classes a halt]
        | some cs =>
          simp only [optBlockAtMostOnePair] at hcons
          cases alt with
          | none =>
            simp only [generateStatement, gE classes (some cond) hcond,
              ihL (indent + 1) classes cs hcons]
          | some a =>
            simp only [optBlockAtMostOnePair] at halt
            simp only [generateStatement, gE classes (some cond) hcond,
              ihL (indent + 1) classes cs hcons,
              ihL (indent + 1)
                (generateStatements fuel ord2 (indent + 1) classes cs).2 a halt]
      | whileS tok cond body =>
        simp only [stmtAtMostOnePair, Bool.and_eq_true] at hs
        obtain ⟨hcond, hbody⟩ := hs
        cases body with
        | none => simp only [generateStatement, gE classes (some cond) hcond]
        | some b =>
          simp only [optBlockAtMostOnePair] at hbody
          simp only [generateStatement, gE classes (some cond) hcond,
            ihL (indent + 1) classes b hbody]
      | forS tok varName start? endE step? iterator? isGeneric body =>
        simp only [stmtAtMostOnePair, Bool.and_eq_true] at hs
        obtain ⟨⟨⟨⟨hstart, hend⟩, hstep⟩, hiter⟩, hbody⟩ := hs
        cases hsq : step? with
        | none =>
          cases hbq : body with
          | none =>
            cases isGeneric <;>
              simp [generateStatement, hsq, hbq, gE classes start? hstart,
                gE classes endE hend, gE classes iterator? hiter]
          | some b =>
            rw [hbq] at hbody
            simp only [optBlockAtMostOnePair] at hbody
            cases isGeneric <;>
              simp [generateStatement, hsq, hbq, gE classes start? hstart,
                gE classes endE hend, gE classes iterator? hiter,
                ihL (indent + 1) classes b hbody]
        | some s =>
          rw [hsq] at hstep
          simp only [optExprAtMostOnePair] at hstep
          cases hbq : body with
          | none =>
            cases isGeneric <;>
              simp [generateStatement, hsq, hbq, gE classes start? hstart,
                gE classes endE hend, gE classes iterator? hiter,
                gE classes (some s) hstep]
          | some b =>
            rw [hbq] at hbody
            simp only [optBlockAtMostOnePair] at hbody
            cases isGeneric <;>
              simp [generateStatement, hsq, hbq, gE classes start? hstart,
                gE classes endE hend, gE classes iterator? hiter,
                gE classes (some s) hstep, ihL (indent + 1) classes b hbody]
      | doS tok body =>
        cases body with
        | none => rfl
        | some b =>
          simp only [stmtAtMostOnePair, optBlockAtMostOnePair] at hs
          simp only [generateStatement, ihL (indent + 1) classes b hs]
      | breakS tok => rfl
      | blockS tok stmts =>
        simp only [stmtAtMostOnePair] at hs
        simp only [generateStatement, ihL indent classes stmts hs]
      | assign tok nameE valueE =>
        simp only [stmtAtMostOnePair, Bool.and_eq_true] at hs
        simp only [generateStatement, gE classes (some nameE) hs.1,
          gE classes (some valueE) hs.2]
      | classDecl tok name gps ext props methods ctor impls isAbs =>
        cases ctor with
        | none =>
          simp only [stmtAtMostOnePair, Bool.and_true, Bool.and_eq_true] at hs
          simp only [generateStatement,
            ihM indent (name :: classes) name methods hs]
        | some cd =>
          obtain ⟨ctok, cparams, cbody⟩ := cd
          cases cbody with
          | none =>
            simp only [stmtAtMostOnePair, optBlockAtMostOnePair, Bool.and_true,
              Bool.and_eq_true] at hs
            simp only [generateStatement,
              ihM indent (name :: classes) name methods hs]
          | some b =>
            simp only [stmtAtMostOnePair, optBlockAtMostOnePair,
              Bool.and_eq_true] at hs
            obtain ⟨hm, hctor⟩ := hs
            simp only [generateStatement,
              ihL (indent + 1) (name :: classes) b hctor,
              ihM indent
                (generateStatements fuel ord2 (indent + 1) (name :: classes) b).2
                name methods hm]
      | interfaceDecl tok name ms props exts => rfl
      | enumDecl tok name members =>
        simp only [stmtAtMostOnePair] at hs
        simp only [generateStatement,
          genEnumMembers_ord_congr ord1 ord2 h1 h2 fuel classes (indent + 1)
            members 0 hs]
      | typeDecl tok name gps t props => rfl
      | declareS tok d => rfl
      | exportS tok s2 =>
        cases s2 with
        | none => rfl
        | some s3 =>
          simp only [stmtAtMostOnePair] at hs
          simp only [generateStatement, ihS indent classes s3 hs]
      | importS tok names module isW => rfl
    · intro indent classes l hl
      match l with
      | [] => rfl
      | s :: rest =>
        simp only [stmtsAtMostOnePair, Bool.and_eq_true] at hl
        simp only [generateStatements, ihS indent classes s hl.1,
          ihL indent (generateStatement fuel ord2 indent classes s).2 rest hl.2]
    · intro indent classes cn ms hms
      match ms with
      | [] => rfl
      | m :: rest =>
        obtain ⟨mtok, mname, mgps, mparams, mret, mbody, mst, mab, mvis⟩ := m
        simp only [methodsAtMostOnePair, Bool.and_eq_true] at hms
        obtain ⟨hb, hrest⟩ := hms
        cases mbody with
        | none =>
          simp only [generateClassMethods, ihM indent classes cn rest hrest]
        | some b =>
          simp only [optBlockAtMostOnePair] at hb
          simp only [generateClassMethods, ihL (indent + 1) classes b hb,
            ihM indent (generateStatements fuel ord2 (indent + 1) classes b).2
              cn rest hrest]

theorem generateLoop_ord_congr (ord1 ord2 : PairOrd)
    (h1 : ∀ l, (ord1 l).Perm l) (h2 : ∀ l, (ord2 l).Perm l) (fuel : Nat) :
    ∀ (l : List Statement) (g : GenTop) (classes : List String) (i total : Nat),
      stmtsAtMostOnePair l = true →
      generateLoop fuel ord1 g classes i total l =
        generateLoop fuel ord2 g classes i total l := by
  intro l
  induction l with
  | nil => intro g classes i total _; rfl
  | cons stmt rest ih =>
    intro g classes i total hl
    simp only [stmtsAtMostOnePair, Bool.and_eq_true] at hl
    simp only [generateLoop,
      (genStmt_ord_congr ord1 ord2 h1 h2 fuel).1 0 classes stmt hl.1]
    rw [ih _ _ (i + 1) total hl.2]

/-- C1 (amended): the compiler's output is byte-identical across runs
*except* for the order of the key-value segments inside multi-pair table
literals, which follows Go's unspecified map enumeration order — formally,
for any two enumeration orders (permutation choices) the generated code is
identical whenever every table literal in the program has at most one
key-value pair.  The counterexample shows a two-pair literal already
breaks byte-identity. -/
theorem C1_deterministic_without_multi_pair_tables (ord1 ord2 : PairOrd)
    (h1 : ∀ l, (ord1 l).Perm l) (h2 : ∀ l, (ord2 l).Perm l)
    (fuel : Nat) (stmts : List Statement) (hp : stmtsAtMostOnePair stmts = true) :
    Generate fuel ord1 stmts = Generate fuel ord2 stmts := by
  unfold Generate
  rw [generateLoop_ord_congr ord1 ord2 h1 h2 fuel stmts _ _ 0 stmts.length hp]

/-- C1's witness: on a program whose only table literal has a single pair,
the identity and reversal enumeration orders generate the same code. -/
theorem C1_witness :
    Generate 100 (fun l => l) c1OnePairProgram =
      Generate 100 (fun l => l.reverse) c1OnePairProgram :=
  C1_deterministic_without_multi_pair_tables (fun l => l) (fun l => l.reverse)
    (fun l => List.Perm.refl l) (fun l => List.reverse_perm l) 100 c1OnePairProgram
    (by simp [stmtsAtMostOnePair, stmtAtMostOnePair, optExprAtMostOnePair,
      exprAtMostOnePair, exprsAtMostOnePair, pairListAtMostOnePair,
      c1OnePairProgram, tk])

end Lunar.Gen
